import Mathlib

/-!
# go-cli-tools: todo services over a SQL store

A shallow embedding of the todo programs of the repository:

* `Main`      : `src/main.go`, the single-file HTTP API (`/todos`, `/todos/{id}`);
* `Handlers`  : `src/1-go-tasks/handlers/todo_handler.go`, the layered variant;
* `GoTodos`   : `src/02-go-todos/main.go`, the variant that takes the id from the body;
* `BareTasks` : `src/03- bare-tasks/main.go`, the console REPL.

Modelling conventions.

* The SQL store is the table `todos` as a list of rows in rowid order together with the
  AUTOINCREMENT counter kept in `sqlite_sequence`.  Every statement the programs issue is
  given its SQLite meaning on that table.  An INSERT fails with SQLITE_FULL once the largest
  rowid, 2^63 - 1, has been used; apart from that, statements are executed successfully (I/O
  failure is not part of the model), so the other `Except` results keep the error branches of
  the handlers in place without the store taking them.  Columns never hold NULL (the programs
  only insert non-NULL values).
* `http.ResponseWriter` is a record that the handlers transform: the headers that matter, the
  status line (written once) and the payloads written to the body.
* `json.NewDecoder(r.Body).Decode(&todo)` is library code: a request carries its outcome,
  either the error text or the decoded value (absent fields are the zero value).
* `time.Now()`, the store's `CURRENT_TIMESTAMP` and `time.Parse` are inputs.
* Go `int` is 64-bit; ids are `Int`.
-/

namespace GoCliTools

/-! ## net/http -/

/-- Go `time.Time` as an instant counted from the zero value `time.Time{}`, which is `0`. -/
abbrev Time := Int

def StatusOK : Nat := 200
def StatusCreated : Nat := 201
def StatusNoContent : Nat := 204
def StatusBadRequest : Nat := 400
def StatusNotFound : Nat := 404
def StatusMethodNotAllowed : Nat := 405
def StatusInternalServerError : Nat := 500

/-- What a handler writes to the response body: the line of `http.Error`, or the value
given to `json.NewEncoder(w).Encode`. -/
inductive Payload (τ : Type) where
  /-- The message line written by `http.Error` (`fmt.Fprintln`). -/
  | text (msg : String)
  /-- A todo struct encoded as a JSON object. -/
  | object (t : τ)
  /-- A non-nil slice encoded as a JSON array, `[]` when it is empty. -/
  | array (ts : List τ)
  /-- A nil slice, which `encoding/json` encodes as `null`. -/
  | null
  /-- The map `{"message": m}`. -/
  | message (m : String)
deriving DecidableEq, Repr

/-- A Go slice: `none` is the nil slice, `some l` a non-nil slice with elements `l`. -/
abbrev Slice (τ : Type) := Option (List τ)

/-- Go `append(s, t)`; appending to the nil slice allocates. -/
def Slice.append {τ : Type} (s : Slice τ) (t : τ) : Slice τ :=
  match s with
  | none => some [t]
  | some l => some (l ++ [t])

/-- The JSON encoding of a slice: `null` for nil, an array otherwise. -/
def Slice.encode {τ : Type} (s : Slice τ) : Payload τ :=
  match s with
  | none => .null
  | some l => .array l

/-- The response as built by a handler.  `status = none` until the status line is written;
headers set after that point do not reach the client. -/
structure ResponseWriter (τ : Type) where
  contentType : Option String
  xContentTypeOptions : Option String
  status : Option Nat
  written : List (Payload τ)
deriving DecidableEq, Repr

/-- The writer a handler receives for a new request. -/
def ResponseWriter.fresh {τ : Type} : ResponseWriter τ :=
  { contentType := none, xContentTypeOptions := none, status := none, written := [] }

/-- Models `w.Header().Set("Content-Type", v)`. -/
def ResponseWriter.setContentType {τ : Type} (w : ResponseWriter τ) (v : String) :
    ResponseWriter τ :=
  match w.status with
  | none => { w with contentType := some v }
  | some _ => w

/-- Models `w.Header().Set("X-Content-Type-Options", v)`. -/
def ResponseWriter.setXContentTypeOptions {τ : Type} (w : ResponseWriter τ) (v : String) :
    ResponseWriter τ :=
  match w.status with
  | none => { w with xContentTypeOptions := some v }
  | some _ => w

/-- Models `w.WriteHeader(code)`: the first call fixes the status, later calls are ignored. -/
def ResponseWriter.WriteHeader {τ : Type} (w : ResponseWriter τ) (code : Nat) :
    ResponseWriter τ :=
  match w.status with
  | none => { w with status := some code }
  | some _ => w

/-- Models `w.Write`: writes the status line `200` first if none was written. -/
def ResponseWriter.Write {τ : Type} (w : ResponseWriter τ) (p : Payload τ) :
    ResponseWriter τ :=
  { w with status := some (w.status.getD StatusOK), written := w.written ++ [p] }

/-- Models `http.Error(w, msg, code)`. -/
def httpError {τ : Type} (w : ResponseWriter τ) (msg : String) (code : Nat) :
    ResponseWriter τ :=
  let w := w.setContentType "text/plain; charset=utf-8"
  let w := w.setXContentTypeOptions "nosniff"
  let w := w.WriteHeader code
  w.Write (.text msg)

/-- A request as a handler sees it: method, `r.URL.Path`, the outcome of decoding the body
into a todo, and the two clock readings a handler may take while serving it. -/
structure Request (τ : Type) where
  Method : String
  Path : String
  /-- Outcome of `json.NewDecoder(r.Body).Decode(&todo)`. -/
  Body : Except String τ
  /-- Value of `time.Now()`. -/
  now : Time
  /-- Text the store yields for a `created_at` filled by `DEFAULT CURRENT_TIMESTAMP`. -/
  dbNow : String

/-! ## strconv -/

/-- Value of a decimal digit string, `none` if a character is not `0`..`9`. -/
def parseDigits : List Char → Nat → Option Nat
  | [], acc => some acc
  | c :: cs, acc =>
    if '0' ≤ c ∧ c ≤ '9' then parseDigits cs (acc * 10 + (c.toNat - '0'.toNat)) else none

/-- Go `strconv.Atoi` for a 64-bit `int`: an optional sign, one or more decimal digits, and a
value in the `int64` range; `none` stands for a non-nil error. -/
def Atoi (s : String) : Option Int :=
  match s.toList with
  | [] => none
  | c :: cs =>
    let neg := c = '-'
    let ds := if c = '-' ∨ c = '+' then cs else c :: cs
    if ds = [] then none
    else
      match parseDigits ds 0 with
      | none => none
      | some n =>
        let v : Int := if neg then -(n : Int) else (n : Int)
        if -(2 : Int) ^ 63 ≤ v ∧ v < (2 : Int) ^ 63 then some v else none

/-! ## The store of `src/main.go` and of the layered variant

`CREATE TABLE todos (id INTEGER PRIMARY KEY AUTOINCREMENT, title TEXT NOT NULL,
completed BOOLEAN DEFAULT 0, created_at DATETIME DEFAULT CURRENT_TIMESTAMP)`. -/

/-- The `Todo` struct of `src/main.go` (and `models.Todo` of the layered variant, of which
the handlers use exactly these four fields). -/
structure Todo where
  ID : Int
  Title : String
  Completed : Bool
  CreatedAt : Time
deriving DecidableEq, Repr

/-- A row of the table `todos`; `created_at` is the text that `Scan` puts into a string. -/
structure Row where
  id : Int
  title : String
  completed : Bool
  created_at : String
deriving DecidableEq, Repr

/-- The store: the rows of `todos` and the AUTOINCREMENT counter (largest rowid handed out so
far, `0` when none). -/
structure DB where
  rows : List Row
  seq : Nat
deriving DecidableEq, Repr

/-- The ids present in the table. -/
def DB.ids (db : DB) : List Int := db.rows.map (·.id)

/-- The rowid for a new row of an AUTOINCREMENT table: one more than the largest rowid in the
table (1 for an empty table), and at least one more than the counter. -/
def nextRowid (ids : List Int) (seq : Nat) : Int :=
  ids.foldl (fun acc i => max acc (i + 1)) ((seq : Int) + 1)

/-- The largest rowid of SQLite, `2^63 - 1`. -/
def maxRowid : Int := 9223372036854775807

/-- The error of an INSERT into an AUTOINCREMENT table whose largest rowid has been used
(SQLITE_FULL), as the driver reports it. -/
def databaseFull : String := "database or disk is full"

/-- Models `SELECT id, title, completed, created_at FROM todos`. -/
def DB.queryAll (db : DB) : Except String (List Row) := .ok db.rows

/-- Models `SELECT id, title, completed, created_at FROM todos WHERE id = ?` through `QueryRow`: the
first matching row, or `none` for `sql.ErrNoRows`. -/
def DB.queryRowById (db : DB) (id : Int) : Except String (Option Row) :=
  .ok (db.rows.find? (fun r => r.id == id))

/-- Models `SELECT EXISTS(SELECT 1 FROM todos WHERE id = ?)`. -/
def DB.queryExists (db : DB) (id : Int) : Except String Bool :=
  .ok (db.rows.any (fun r => r.id == id))

/-- Models `INSERT INTO todos (title, completed) VALUES (?, ?)`; returns the new store and
`LastInsertId`.  When the counter or a row has reached `maxRowid` there is no rowid left and
the statement fails, leaving the store as it was. -/
def DB.execInsert (db : DB) (title : String) (completed : Bool) (dbNow : String) :
    Except String (DB × Int) :=
  let id := nextRowid db.ids db.seq
  if maxRowid < id then .error databaseFull
  else
    .ok ({ rows := db.rows ++ [{ id := id, title := title, completed := completed,
                                 created_at := dbNow }],
           seq := id.toNat }, id)

/-- Models `UPDATE todos SET title = ?, completed = ? WHERE id = ?`. -/
def DB.execUpdate (db : DB) (title : String) (completed : Bool) (id : Int) :
    Except String DB :=
  .ok { db with rows := db.rows.map (fun r =>
          if r.id = id then { r with title := title, completed := completed } else r) }

/-- Models `DELETE FROM todos WHERE id = ?`. -/
def DB.execDelete (db : DB) (id : Int) : Except String DB :=
  .ok { db with rows := db.rows.filter (fun r => r.id != id) }

/-- Models `time.Parse("2006-01-02 15:04:05", s)` with the error dropped: the zero time on failure. -/
def parseCreatedAt (timeParse : String → Option Time) (s : String) : Time :=
  (timeParse s).getD 0

/-- The struct a handler fills by `Scan` and `time.Parse` from a row. -/
def Row.toTodo (timeParse : String → Option Time) (r : Row) : Todo :=
  { ID := r.id, Title := r.title, Completed := r.completed,
    CreatedAt := parseCreatedAt timeParse r.created_at }

/-! ## `src/main.go` -/

namespace Main

/-- Models `getTodos`. -/
def getTodos (timeParse : String → Option Time) (db : DB) (w : ResponseWriter Todo)
    (_r : Request Todo) : DB × ResponseWriter Todo :=
  match db.queryAll with
  | .error err => (db, httpError w err StatusInternalServerError)
  | .ok rows =>
    -- todos := []Todo{}; for rows.Next() { ...; todos = append(todos, todo) }
    let todos : Slice Todo :=
      rows.foldl (fun acc row => acc.append (row.toTodo timeParse)) (some [])
    let w := w.setContentType "application/json"
    (db, w.Write todos.encode)

/-- Models `getTodo`. -/
def getTodo (timeParse : String → Option Time) (db : DB) (w : ResponseWriter Todo)
    (_r : Request Todo) (id : Int) : DB × ResponseWriter Todo :=
  match db.queryRowById id with
  | .error err => (db, httpError w err StatusInternalServerError)
  | .ok none => (db, httpError w "Todo not found" StatusNotFound)
  | .ok (some row) =>
    let todo := row.toTodo timeParse
    let w := w.setContentType "application/json"
    (db, w.Write (.object todo))

/-- Models `createTodo`. -/
def createTodo (db : DB) (w : ResponseWriter Todo) (r : Request Todo) :
    DB × ResponseWriter Todo :=
  match r.Body with
  | .error err => (db, httpError w err StatusBadRequest)
  | .ok todo =>
    match db.execInsert todo.Title todo.Completed r.dbNow with
    | .error err => (db, httpError w err StatusInternalServerError)
    | .ok (db, id) =>
      let todo := { todo with ID := id, CreatedAt := r.now }
      let w := w.setContentType "application/json"
      let w := w.WriteHeader StatusCreated
      (db, w.Write (.object todo))

/-- Models `updateTodo`. -/
def updateTodo (timeParse : String → Option Time) (db : DB) (w : ResponseWriter Todo)
    (r : Request Todo) (id : Int) : DB × ResponseWriter Todo :=
  match r.Body with
  | .error err => (db, httpError w err StatusBadRequest)
  | .ok todo =>
    match db.queryExists id with
    | .error err => (db, httpError w err StatusInternalServerError)
    | .ok false => (db, httpError w "Todo not found" StatusNotFound)
    | .ok true =>
      match db.execUpdate todo.Title todo.Completed id with
      | .error err => (db, httpError w err StatusInternalServerError)
      | .ok db =>
        match db.queryRowById id with
        | .error err => (db, httpError w err StatusInternalServerError)
        | .ok none => (db, httpError w "sql: no rows in result set" StatusInternalServerError)
        | .ok (some row) =>
          -- Scan overwrites ID, Title and Completed; CreatedAt is assigned from time.Parse
          let todo := { todo with ID := row.id, Title := row.title, Completed := row.completed,
                                  CreatedAt := parseCreatedAt timeParse row.created_at }
          let w := w.setContentType "application/json"
          (db, w.Write (.object todo))

/-- Models `deleteTodo`. -/
def deleteTodo (db : DB) (w : ResponseWriter Todo) (_r : Request Todo) (id : Int) :
    DB × ResponseWriter Todo :=
  match db.queryExists id with
  | .error err => (db, httpError w err StatusInternalServerError)
  | .ok false => (db, httpError w "Todo not found" StatusNotFound)
  | .ok true =>
    match db.execDelete id with
    | .error err => (db, httpError w err StatusInternalServerError)
    | .ok db => (db, w.WriteHeader StatusNoContent)

/-- Models `handleTodos`, registered for the path `/todos`. -/
def handleTodos (timeParse : String → Option Time) (db : DB) (w : ResponseWriter Todo)
    (r : Request Todo) : DB × ResponseWriter Todo :=
  if r.Method = "GET" then getTodos timeParse db w r
  else if r.Method = "POST" then createTodo db w r
  else (db, httpError w "Method not allowed" StatusMethodNotAllowed)

/-- Models `handleTodo`, registered for the pattern `/todos/`, so that `r.URL.Path` starts with
`/todos/` and `r.URL.Path[len("/todos/"):]` is the rest of the path. -/
def handleTodo (timeParse : String → Option Time) (db : DB) (w : ResponseWriter Todo)
    (r : Request Todo) : DB × ResponseWriter Todo :=
  match Atoi (String.mk (r.Path.toList.drop "/todos/".length)) with
  | none => (db, httpError w "Invalid todo ID" StatusBadRequest)
  | some id =>
    if r.Method = "GET" then getTodo timeParse db w r id
    else if r.Method = "PUT" then updateTodo timeParse db w r id
    else if r.Method = "DELETE" then deleteTodo db w r id
    else (db, httpError w "Method not allowed" StatusMethodNotAllowed)

end Main

/-! ## `src/1-go-tasks/handlers/todo_handler.go`

The handler value holds the store handle `h.db`; the table is the one of
`src/db/database.go`, the same as in `src/main.go`.  The Content-Type header is left to the
middleware. -/

namespace Handlers

/-- Models `(*TodoHandler).getTodos`. -/
def getTodos (timeParse : String → Option Time) (db : DB) (w : ResponseWriter Todo)
    (_r : Request Todo) : DB × ResponseWriter Todo :=
  match db.queryAll with
  | .error err => (db, httpError w err StatusInternalServerError)
  | .ok rows =>
    let todos : Slice Todo :=
      rows.foldl (fun acc row => acc.append (row.toTodo timeParse)) (some [])
    (db, w.Write todos.encode)

/-- Models `(*TodoHandler).getTodo`. -/
def getTodo (timeParse : String → Option Time) (db : DB) (w : ResponseWriter Todo)
    (_r : Request Todo) (id : Int) : DB × ResponseWriter Todo :=
  match db.queryRowById id with
  | .error err => (db, httpError w err StatusInternalServerError)
  | .ok none => (db, httpError w "Todo not found" StatusNotFound)
  | .ok (some row) => (db, w.Write (.object (row.toTodo timeParse)))

/-- Models `(*TodoHandler).createTodo`. -/
def createTodo (db : DB) (w : ResponseWriter Todo) (r : Request Todo) :
    DB × ResponseWriter Todo :=
  match r.Body with
  | .error err => (db, httpError w err StatusBadRequest)
  | .ok todo =>
    match db.execInsert todo.Title todo.Completed r.dbNow with
    | .error err => (db, httpError w err StatusInternalServerError)
    | .ok (db, id) =>
      let todo := { todo with ID := id, CreatedAt := r.now }
      let w := w.WriteHeader StatusCreated
      (db, w.Write (.object todo))

/-- Models `(*TodoHandler).updateTodo`. -/
def updateTodo (timeParse : String → Option Time) (db : DB) (w : ResponseWriter Todo)
    (r : Request Todo) (id : Int) : DB × ResponseWriter Todo :=
  match r.Body with
  | .error err => (db, httpError w err StatusBadRequest)
  | .ok todo =>
    match db.queryExists id with
    | .error err => (db, httpError w err StatusInternalServerError)
    | .ok false => (db, httpError w "Todo not found" StatusNotFound)
    | .ok true =>
      match db.execUpdate todo.Title todo.Completed id with
      | .error err => (db, httpError w err StatusInternalServerError)
      | .ok db =>
        match db.queryRowById id with
        | .error err => (db, httpError w err StatusInternalServerError)
        | .ok none => (db, httpError w "sql: no rows in result set" StatusInternalServerError)
        | .ok (some row) =>
          let todo := { todo with ID := row.id, Title := row.title, Completed := row.completed,
                                  CreatedAt := parseCreatedAt timeParse row.created_at }
          (db, w.Write (.object todo))

/-- Models `(*TodoHandler).deleteTodo`. -/
def deleteTodo (db : DB) (w : ResponseWriter Todo) (_r : Request Todo) (id : Int) :
    DB × ResponseWriter Todo :=
  match db.queryExists id with
  | .error err => (db, httpError w err StatusInternalServerError)
  | .ok false => (db, httpError w "Todo not found" StatusNotFound)
  | .ok true =>
    match db.execDelete id with
    | .error err => (db, httpError w err StatusInternalServerError)
    | .ok db => (db, w.WriteHeader StatusNoContent)

/-- Models `(*TodoHandler).HandleTodos`. -/
def HandleTodos (timeParse : String → Option Time) (db : DB) (w : ResponseWriter Todo)
    (r : Request Todo) : DB × ResponseWriter Todo :=
  if r.Method = "GET" then getTodos timeParse db w r
  else if r.Method = "POST" then createTodo db w r
  else (db, httpError w "Method not allowed" StatusMethodNotAllowed)

/-- Go `strings.TrimPrefix(s, p)` on character lists. -/
def TrimPrefix (s p : List Char) : List Char :=
  if p.isPrefixOf s then s.drop p.length else s

/-- Models `(*TodoHandler).HandleTodo`. -/
def HandleTodo (timeParse : String → Option Time) (db : DB) (w : ResponseWriter Todo)
    (r : Request Todo) : DB × ResponseWriter Todo :=
  let path := TrimPrefix r.Path.toList "/todos/".toList
  if path = [] then (db, httpError w "Invalid todo ID" StatusBadRequest)
  else
    match Atoi (String.mk path) with
    | none => (db, httpError w "Invalid todo ID" StatusBadRequest)
    | some id =>
      if r.Method = "GET" then getTodo timeParse db w r id
      else if r.Method = "PUT" then updateTodo timeParse db w r id
      else if r.Method = "DELETE" then deleteTodo db w r id
      else (db, httpError w "Method not allowed" StatusMethodNotAllowed)

end Handlers

/-! ## `src/02-go-todos/main.go`

`CREATE TABLE IF NOT EXISTS todos (id INTEGER PRIMARY KEY AUTOINCREMENT, task TEXT NOT NULL,
completed BOOLEAN NOT NULL DEFAULT 0)`; one route, the id of PUT and DELETE comes from the
body. -/

namespace GoTodos

/-- The `Todo` struct of `src/02-go-todos/main.go`; a table row has the same three columns. -/
structure Todo where
  ID : Int
  Task : String
  Completed : Bool
deriving DecidableEq, Repr

/-- The store of this variant. -/
structure DB where
  rows : List Todo
  seq : Nat
deriving DecidableEq, Repr

/-- The ids present in the table. -/
def DB.ids (db : DB) : List Int := db.rows.map (·.ID)

/-- Models `INSERT INTO todos (task, completed) VALUES (?, ?)`; it fails when no rowid is
left. -/
def DB.execInsert (db : DB) (task : String) (completed : Bool) : Except String (DB × Int) :=
  let id := nextRowid db.ids db.seq
  if maxRowid < id then .error databaseFull
  else
    .ok ({ rows := db.rows ++ [{ ID := id, Task := task, Completed := completed }],
           seq := id.toNat }, id)

/-- Models `SELECT id, task, completed FROM todos`. -/
def DB.queryAll (db : DB) : Except String (List Todo) := .ok db.rows

/-- Models `UPDATE todos SET task = ?, completed = ? WHERE id = ?`. -/
def DB.execUpdate (db : DB) (task : String) (completed : Bool) (id : Int) :
    Except String DB :=
  .ok { db with rows := db.rows.map (fun r =>
          if r.ID = id then { r with Task := task, Completed := completed } else r) }

/-- Models `DELETE FROM todos WHERE id = ?`. -/
def DB.execDelete (db : DB) (id : Int) : Except String DB :=
  .ok { db with rows := db.rows.filter (fun r => r.ID != id) }

/-- Models `createTodoHandler`. -/
def createTodoHandler (db : DB) (w : ResponseWriter Todo) (r : Request Todo) :
    DB × ResponseWriter Todo :=
  match r.Body with
  | .error _ => (db, httpError w "Invalid request" StatusBadRequest)
  | .ok todo =>
    match db.execInsert todo.Task todo.Completed with
    | .error _ => (db, httpError w "Failed to create todo" StatusInternalServerError)
    | .ok (db, id) =>
      let todo := { todo with ID := id }
      (db, w.Write (.object todo))

/-- Models `getTodosHandler`. -/
def getTodosHandler (db : DB) (w : ResponseWriter Todo) (_r : Request Todo) :
    DB × ResponseWriter Todo :=
  match db.queryAll with
  | .error _ => (db, httpError w "Failed to fetch todos" StatusInternalServerError)
  | .ok rows =>
    -- var todos []Todo; for rows.Next() { ...; todos = append(todos, t) }
    let todos : Slice Todo := rows.foldl (fun acc t => acc.append t) none
    (db, w.Write todos.encode)

/-- Models `updateTodoHandler`. -/
def updateTodoHandler (db : DB) (w : ResponseWriter Todo) (r : Request Todo) :
    DB × ResponseWriter Todo :=
  match r.Body with
  | .error _ => (db, httpError w "Invalid request" StatusBadRequest)
  | .ok todo =>
    match db.execUpdate todo.Task todo.Completed todo.ID with
    | .error _ => (db, httpError w "Failed to update todo" StatusInternalServerError)
    | .ok db => (db, w.Write (.object todo))

/-- Models `deleteTodoHandler`. -/
def deleteTodoHandler (db : DB) (w : ResponseWriter Todo) (r : Request Todo) :
    DB × ResponseWriter Todo :=
  match r.Body with
  | .error _ => (db, httpError w "Invalid request" StatusBadRequest)
  | .ok todo =>
    match db.execDelete todo.ID with
    | .error _ => (db, httpError w "Failed to delete todo" StatusInternalServerError)
    | .ok db => (db, w.Write (.message "Todo deleted"))

/-- Models the handler `main` registers for `/todos`. -/
def handle (db : DB) (w : ResponseWriter Todo) (r : Request Todo) : DB × ResponseWriter Todo :=
  if r.Method = "GET" then getTodosHandler db w r
  else if r.Method = "POST" then createTodoHandler db w r
  else if r.Method = "PUT" then updateTodoHandler db w r
  else if r.Method = "DELETE" then deleteTodoHandler db w r
  else (db, httpError w "Method not allowed" StatusMethodNotAllowed)

end GoTodos

/-! ## `src/03- bare-tasks/main.go`

The console REPL.  `CREATE TABLE IF NOT EXISTS todos (id INTEGER NOT NULL PRIMARY KEY
AUTOINCREMENT, title TEXT)`.  Standard input is a terminal: the process reads the lines typed
so far and then waits. -/

namespace BareTasks

/-- The `Todo` struct of the REPL; a table row has the same two columns. -/
structure Todo where
  Id : Int
  Title : String
deriving DecidableEq, Repr

/-- The table `todos` of `./app.db` and its AUTOINCREMENT counter. -/
structure Store where
  rows : List Todo
  seq : Nat
deriving DecidableEq, Repr

/-- A `*sql.DB` obtained from `sql.Open`; the nil pointer is `none : Option Handle`. -/
structure Handle where
  dataSourceName : String
deriving DecidableEq, Repr

/-- The process: the package variable `db`, the database file (`none` while it has no table
`todos`), the variable `offset` of `main`, and what was written to standard output and to the
logger. -/
structure Proc where
  db : Option Handle
  file : Option Store
  offset : Int
  out : List String
  log : List String
deriving DecidableEq, Repr

/-- Where the next line of input is read: by the command loop of `main`, or by the inner loop
that follows a page of `show`. -/
inductive Mode where
  | command
  | pager
deriving DecidableEq, Repr

/-- What the process is doing once the input typed so far is consumed.  A panic is the runtime
error of a call through the nil `db`. -/
inductive Status where
  | waiting (m : Mode)
  | exited
  | panicked
deriving DecidableEq, Repr

/-! ### Go strings -/

/-- Go `unicode.IsSpace`. -/
def isSpace (c : Char) : Bool :=
  let n := c.toNat
  (9 ≤ n && n ≤ 13) || n = 32 || n = 0x85 || n = 0xA0 || n = 0x1680 ||
  (0x2000 ≤ n && n ≤ 0x200A) || n = 0x2028 || n = 0x2029 || n = 0x202F || n = 0x205F ||
  n = 0x3000

/-- Go `strings.TrimSpace`. -/
def TrimSpace (s : List Char) : List Char :=
  ((s.dropWhile isSpace).reverse.dropWhile isSpace).reverse

/-- Go `strings.HasPrefix`. -/
def HasPrefix (s p : List Char) : Bool := p.isPrefixOf s

/-- Go `strings.TrimPrefix`. -/
def TrimPrefix (s p : List Char) : List Char :=
  if HasPrefix s p then s.drop p.length else s

/-- Output of `fmt.Printf("%d. %s\n", todo.Id, todo.Title)`. -/
def formatTodo (t : Todo) : String :=
  toString t.Id ++ ". " ++ t.Title ++ "\n"

/-- Models `fmt.Println(s)`. -/
def println (p : Proc) (s : String) : Proc :=
  { p with out := p.out ++ [s ++ "\n"] }

/-- Models `log.Println(msg, err)`, without the time stamp of the logger. -/
def logPrintln (p : Proc) (msg err : String) : Proc :=
  { p with log := p.log ++ [msg ++ " " ++ err ++ "\n"] }

/-! ### SQLite `LIKE` -/

/-- ASCII lower-casing, the only case folding of the built-in `LIKE`. -/
def asciiLower (c : Char) : Char :=
  if 65 ≤ c.toNat ∧ c.toNat ≤ 90 then Char.ofNat (c.toNat + 32) else c

/-- Two characters are equal for `LIKE`: the same, or ASCII letters that differ in case. -/
def likeCharEq (c d : Char) : Bool := asciiLower c == asciiLower d

/-- Whether `f` accepts the text or one of its suffixes: the meaning of `%` followed by the
rest of a pattern `f`. -/
def anySuffix (f : List Char → Bool) : List Char → Bool
  | [] => f []
  | c :: cs => f (c :: cs) || anySuffix f cs

/-- SQLite `patternCompare` for `LIKE` without ESCAPE: in the pattern `%` stands for any run
of characters, `_` for exactly one character, any other character for itself up to ASCII
case. -/
def patternCompare : List Char → List Char → Bool
  | [], text => text.isEmpty
  | p :: ps, text =>
    if p = '%' then anySuffix (patternCompare ps) text
    else
      match text with
      | [] => false
      | c :: cs => (p = '_' || likeCharEq p c) && patternCompare ps cs

/-- The default `SQLITE_MAX_LIKE_PATTERN_LENGTH`, in bytes. -/
def likePatternLimit : Nat := 50000

/-- The built-in SQL function `text LIKE pattern`: an error for a pattern of more than
`likePatternLimit` bytes, the result of `patternCompare` otherwise. -/
def like (pattern text : String) : Except String Bool :=
  if likePatternLimit < pattern.utf8ByteSize then .error "LIKE or GLOB pattern too complex"
  else .ok (patternCompare pattern.toList text.toList)

/-! ### Statements -/

/-- Models `INSERT INTO todos (title) VALUES (?)`; it fails when no rowid is left. -/
def Store.insert (s : Store) (title : String) : Except String Store :=
  let id := nextRowid (s.rows.map (·.Id)) s.seq
  if maxRowid < id then .error databaseFull
  else .ok { rows := s.rows ++ [{ Id := id, Title := title }], seq := id.toNat }

/-- Models `SELECT id, title FROM todos LIMIT 10 OFFSET ?`; a negative offset counts as 0. -/
def Store.page (s : Store) (offset : Int) : List Todo :=
  (s.rows.drop offset.toNat).take 10

/-- The rows that stepping through `SELECT id, title FROM todos WHERE title LIKE ? OR id = ?`
hands to `rows.Next()`, for the rows of the table still to be visited.  The condition is
evaluated row by row, `LIKE` first; a step in which `LIKE` fails ends the result set (the
loop of `findTodos` stops and `rows.Err()` is not looked at).  `idEq` is the store's
comparison `id = ?` of the INTEGER column with the bound text, which goes through SQLite's
conversion of text to a number; it is an argument of the model. -/
def stepFind (idEq : Int → String → Bool) (pattern query : String) : List Todo → List Todo
  | [] => []
  | t :: ts =>
    match like pattern t.Title with
    | .error _ => []
    | .ok matched =>
      if matched || idEq t.Id query then t :: stepFind idEq pattern query ts
      else stepFind idEq pattern query ts

/-- Models `SELECT id, title FROM todos WHERE title LIKE ? OR id = ?` with the parameters
`"%"+query+"%"` and `query`. -/
def Store.find (idEq : Int → String → Bool) (s : Store) (query : String) : List Todo :=
  stepFind idEq ("%" ++ query ++ "%") query s.rows

/-- The error of a statement on a database without the table. -/
def noSuchTable : String := "no such table: todos"

/-! ### The program -/

/-- Models `initDB`.  The handle of `sql.Open` is bound by `:=` to a new local variable `db`,
so the table is created through the local handle and the package variable `db` is left as it
was. -/
def initDB (p : Proc) : Proc :=
  -- db, err := sql.Open("sqlite3", "./app.db")
  let _db : Handle := { dataSourceName := "./app.db" }
  -- _, err = db.Exec(`CREATE TABLE IF NOT EXISTS todos (...)`)
  { p with file := some (p.file.getD { rows := [], seq := 0 }) }

/-- Models `addTodo`; `.error` is the process at the moment of a panic. -/
def addTodo (p : Proc) (title : String) : Except Proc Proc :=
  match p.db with
  | none => .error p
  | some _ =>
    match p.file with
    | none => .ok (logPrintln p "Failed to add todo:" noSuchTable)
    | some s =>
      match s.insert title with
      | .error err => .ok (logPrintln p "Failed to add todo:" err)
      | .ok s => .ok (println { p with file := some s } "Todo added!")

/-- Models `showTodos`: prints one page and returns the number of rows printed (or, when the
query fails, the offset it was given). -/
def showTodos (p : Proc) (offset : Int) : Except Proc (Int × Proc) :=
  match p.db with
  | none => .error p
  | some _ =>
    match p.file with
    | none => .ok (offset, logPrintln p "Failed to fetch todos:" noSuchTable)
    | some s =>
      let rows := s.page offset
      .ok ((rows.length : Int), { p with out := p.out ++ rows.map formatTodo })

/-- Models `findTodos`. -/
def findTodos (idEq : Int → String → Bool) (p : Proc) (query : String) : Except Proc Proc :=
  match p.db with
  | none => .error p
  | some _ =>
    match p.file with
    | none => .ok (logPrintln p "Failed to find todos:" noSuchTable)
    | some s =>
      let rows := s.find idEq query
      let p := { p with out := p.out ++ rows.map formatTodo }
      -- found is true exactly when a row was printed
      if rows.isEmpty then .ok (println p "No matching todos found.") else .ok p

/-- Models `fmt.Print("> ")` at the head of the command loop. -/
def prompt (p : Proc) : Proc := { p with out := p.out ++ ["> "] }

/-- One turn of the command loop of `main` on the line just read; the loop then prints the
next prompt unless the process stops or a page is being shown. -/
def command (idEq : Int → String → Bool) (p : Proc) (line : String) : Proc × Status :=
  let input := TrimSpace line.toList
  if HasPrefix input "add ".toList then
    let title := TrimPrefix input "add ".toList
    match addTodo p (String.mk title) with
    | .error p => (p, .panicked)
    | .ok p => (prompt p, .waiting .command)
  else if input = "show".toList then
    match showTodos p p.offset with
    | .error p => (p, .panicked)
    | .ok (count, p) =>
      if count = 0 then (prompt (println p "No more todos."), .waiting .command)
      else (println p "Press Enter to see more or 'q' to go back.", .waiting .pager)
  else if HasPrefix input "find ".toList then
    let query := TrimPrefix input "find ".toList
    match findTodos idEq p (String.mk query) with
    | .error p => (p, .panicked)
    | .ok p => (prompt p, .waiting .command)
  else if input = "exit".toList then (println p "Goodbye!", .exited)
  else
    (prompt (println p "Unknown command. Use 'add', 'show', 'find', or 'exit'."),
      .waiting .command)

/-- One turn of the inner loop of `show` on the line just read. -/
def pager (p : Proc) (line : String) : Proc × Status :=
  let cont := TrimSpace line.toList
  if cont = "q".toList then
    let p := if p.offset ≥ 10 then { p with offset := p.offset - 10 } else p
    (prompt p, .waiting .command)
  else if cont = [] then
    let p := { p with offset := p.offset + 10 }
    match showTodos p p.offset with
    | .error p => (p, .panicked)
    | .ok (count, p) =>
      if count = 0 then (prompt (println p "No more todos."), .waiting .command)
      else (p, .waiting .pager)
  else (prompt p, .waiting .command)

/-- The process reads a line. -/
def step (idEq : Int → String → Bool) (p : Proc) (m : Mode) (line : String) : Proc × Status :=
  match m with
  | .command => command idEq p line
  | .pager => pager p line

/-- The process consumes the lines typed so far. -/
def run (idEq : Int → String → Bool) : Proc → Mode → List String → Proc × Status
  | p, m, [] => (p, .waiting m)
  | p, m, line :: rest =>
    match step idEq p m line with
    | (p, .waiting m) => run idEq p m rest
    | stopped => stopped

/-- Models `main`: the process starts with `db` nil and `offset` 0 on the database file
`file`, calls `initDB`, prints the first prompt and serves the lines of `stdin`. -/
def main (idEq : Int → String → Bool) (file : Option Store) (stdin : List String) :
    Proc × Status :=
  let p : Proc := { db := none, file := file, offset := 0, out := [], log := [] }
  let p := initDB p
  run idEq (prompt p) .command stdin

end BareTasks

/-! ## `src/01-go-tasks/middleware/middleware.go` and `src/01-go-tasks/main.go`

The layered server.  A handler acts on the store, the response writer and the logger; the
duration that `Logging` prints after a request is real time and is left out of the log
line. -/

namespace GoTask

/-- A line written by `log.Printf` in `Logging`, or any other line a handler logs. -/
inductive LogLine where
  /-- `Started <method> <path>`. -/
  | started (method path : String)
  /-- `Completed <method> <path> in <duration>`. -/
  | completed (method path : String)
  | other (msg : String)
deriving DecidableEq, Repr

/-- What a handler of the layered server acts on. -/
structure World where
  db : DB
  w : ResponseWriter Todo
  log : List LogLine
deriving DecidableEq, Repr

/-- Go `http.HandlerFunc`: `func(w http.ResponseWriter, r *http.Request)`. -/
abbrev HandlerFunc := World → Request Todo → World

/-- The type `Middleware`: `func(http.HandlerFunc) http.HandlerFunc`. -/
abbrev Middleware := HandlerFunc → HandlerFunc

/-- Models `Chain`: `for _, m := range middlewares { f = m(f) }; return f`. -/
def Chain : HandlerFunc → List Middleware → HandlerFunc
  | f, [] => f
  | f, m :: middlewares => Chain (m f) middlewares

/-- Models `Logging()`. -/
def Logging : Middleware :=
  fun f => fun world r =>
    let world := { world with log := world.log ++ [LogLine.started r.Method r.Path] }
    let world := f world r
    { world with log := world.log ++ [LogLine.completed r.Method r.Path] }

/-- Models `ContentTypeJSON()`. -/
def ContentTypeJSON : Middleware :=
  fun f => fun world r =>
    f { world with w := world.w.setContentType "application/json" } r

/-- A method of the `TodoHandler` as an `http.HandlerFunc`: it works on the store handle of
the handler value and on the writer it is given. -/
def handlerFunc
    (method : DB → ResponseWriter Todo → Request Todo → DB × ResponseWriter Todo) :
    HandlerFunc :=
  fun world r =>
    let res := method world.db world.w r
    { world with db := res.1, w := res.2 }

/-- The handler `main` registers for `/todos`. -/
def todosRoute (timeParse : String → Option Time) : HandlerFunc :=
  Chain (handlerFunc (Handlers.HandleTodos timeParse)) [Logging, ContentTypeJSON]

/-- The handler `main` registers for `/todos/`. -/
def todoRoute (timeParse : String → Option Time) : HandlerFunc :=
  Chain (handlerFunc (Handlers.HandleTodo timeParse)) [Logging, ContentTypeJSON]

end GoTask

/-! ## Row identity across a request -/

/-- The rows kept by a request have the ids they had before it.  One of three shapes: the
table has the same ids at the same positions (reads, updates, rejected requests); or it is
the old table without the rows of one id, the others untouched (delete); or it is the old
table followed by one new row whose id was not in use (insert). -/
def IdsKept (before after : List Row) : Prop :=
  after.map (·.id) = before.map (·.id) ∨
  (∃ id : Int, after = before.filter (fun r => r.id != id)) ∨
  (∃ row : Row, row.id ∉ before.map (·.id) ∧ after = before ++ [row])

/-! ## Sample inputs -/

namespace Sample

/-- A `time.Parse` that rejects every text. -/
def noParse : String → Option Time := fun _ => none

/-- A store with two rows. -/
def twoRows : DB :=
  { rows := [{ id := 1, title := "buy milk", completed := false,
               created_at := "2024-05-01T10:00:00Z" },
             { id := 2, title := "walk dog", completed := true,
               created_at := "2024-05-02T11:30:00Z" }],
    seq := 2 }

/-- A store whose last row has the largest rowid. -/
def fullStore : DB :=
  { rows := [{ id := 9223372036854775807, title := "last", completed := false,
               created_at := "2024-05-01T10:00:00Z" }],
    seq := 9223372036854775807 }

/-- The decoded body `{"title":"buy milk","completed":false}`. -/
def milk : Todo := { ID := 0, Title := "buy milk", Completed := false, CreatedAt := 0 }

/-- The decoded body `{"id":9,"title":"feed cat","completed":true}`. -/
def cat : Todo := { ID := 9, Title := "feed cat", Completed := true, CreatedAt := 0 }

/-- POST /todos with body `milk`. -/
def postMilk : Request Todo :=
  { Method := "POST", Path := "/todos", Body := .ok milk, now := 1714557600,
    dbNow := "2024-05-01T10:00:00Z" }

/-- PUT /todos/2 with body `cat`. -/
def putCat : Request Todo :=
  { Method := "PUT", Path := "/todos/2", Body := .ok cat, now := 1714557600,
    dbNow := "2024-05-01T10:00:00Z" }

/-- A request whose body is not JSON. -/
def badBody : Request Todo :=
  { Method := "POST", Path := "/todos", Body := .error "invalid character 'x'",
    now := 1714557600, dbNow := "2024-05-01T10:00:00Z" }

/-- A request of the 02-go-todos variant whose body is not JSON. -/
def badBodyGoTodos : Request GoTodos.Todo :=
  { Method := "POST", Path := "/todos", Body := .error "invalid character 'x'",
    now := 1714557600, dbNow := "" }

/-- The empty table of the 02-go-todos variant. -/
def emptyGoTodos : GoTodos.DB := { rows := [], seq := 0 }

/-- PUT or DELETE of the 02-go-todos variant with body `{"id":7,"task":"feed cat"}`. -/
def putSeven : Request GoTodos.Todo :=
  { Method := "PUT", Path := "/todos", Body := .ok { ID := 7, Task := "feed cat",
                                                     Completed := false },
    now := 1714557600, dbNow := "" }

/-- A REPL process whose `db` is an open handle on a table with one row. -/
def cliProc : BareTasks.Proc :=
  { db := some { dataSourceName := "./app.db" },
    file := some { rows := [{ Id := 1, Title := "buy milk" }], seq := 1 },
    offset := 0, out := [], log := [] }

/-- A REPL process whose `db` is an open handle on a table of 25 rows, with the cursor of
`show` on the second page. -/
def pagedProc : BareTasks.Proc :=
  { db := some { dataSourceName := "./app.db" },
    file := some { rows := (List.range 25).map (fun i =>
                     { Id := (i : Int) + 1, Title := "todo" }),
                   seq := 25 },
    offset := 10, out := [], log := [] }

/-- A handler that logs the request it is given and the Content-Type it finds set. -/
def probe : GoTask.HandlerFunc :=
  fun world r =>
    { world with log := world.log ++
        [GoTask.LogLine.other (r.Method ++ " " ++ r.Path ++ " " ++ world.w.contentType.getD "")] }

/-- The layered server before a request: a store, a new writer, an empty log. -/
def world : GoTask.World :=
  { db := twoRows, w := ResponseWriter.fresh, log := [] }

/-- A request with an empty decoded body, for GET and DELETE. -/
def noBody : Request Todo :=
  { Method := "GET", Path := "/todos/2",
    Body := .ok { ID := 0, Title := "", Completed := false, CreatedAt := 0 },
    now := 1714557600, dbNow := "2024-05-01T10:00:00Z" }

end Sample

/-! # Properties -/

/-! ## The store -/

theorem foldl_max_succ_ge (ids : List Int) (a : Int) :
    a ≤ ids.foldl (fun acc i => max acc (i + 1)) a := by
  induction ids generalizing a with
  | nil => simp
  | cons i is ih =>
    simp only [List.foldl_cons]
    exact le_trans (le_max_left a (i + 1)) (ih _)

theorem foldl_max_succ_gt (ids : List Int) (a : Int) (i : Int) (hi : i ∈ ids) :
    i < ids.foldl (fun acc i => max acc (i + 1)) a := by
  induction ids generalizing a with
  | nil => simp at hi
  | cons j js ih =>
    simp only [List.foldl_cons]
    rcases List.mem_cons.mp hi with h | h
    · subst h
      have h1 : max a (i + 1) ≤ js.foldl (fun acc i => max acc (i + 1)) (max a (i + 1)) :=
        foldl_max_succ_ge js _
      have h2 : i + 1 ≤ max a (i + 1) := le_max_right _ _
      omega
    · exact ih _ h

/-- A new rowid is positive. -/
theorem nextRowid_pos (ids : List Int) (seq : Nat) : 0 < nextRowid ids seq := by
  have h := foldl_max_succ_ge ids ((seq : Int) + 1)
  unfold nextRowid
  omega

/-- A new rowid exceeds the AUTOINCREMENT counter. -/
theorem nextRowid_gt_seq (ids : List Int) (seq : Nat) : (seq : Int) < nextRowid ids seq := by
  have h := foldl_max_succ_ge ids ((seq : Int) + 1)
  unfold nextRowid
  omega

/-- A new rowid exceeds every rowid of the table. -/
theorem nextRowid_gt (ids : List Int) (seq : Nat) (i : Int) (hi : i ∈ ids) :
    i < nextRowid ids seq :=
  foldl_max_succ_gt ids _ i hi

theorem foldl_max_succ_le (ids : List Int) (a b : Int) (ha : a ≤ b)
    (hids : ∀ i ∈ ids, i + 1 ≤ b) :
    ids.foldl (fun acc i => max acc (i + 1)) a ≤ b := by
  induction ids generalizing a with
  | nil => simpa using ha
  | cons j js ih =>
    simp only [List.foldl_cons]
    exact ih _ (max_le ha (hids j (List.mem_cons_self _ _)))
      (fun i hi => hids i (List.mem_cons_of_mem _ hi))

/-- While the counter and every id are below the largest rowid, a rowid is left. -/
theorem nextRowid_le_max (ids : List Int) (seq : Nat) (hseq : (seq : Int) < maxRowid)
    (hids : ∀ i ∈ ids, i < maxRowid) : nextRowid ids seq ≤ maxRowid :=
  foldl_max_succ_le ids _ _ (by omega) (fun i hi => by have := hids i hi; omega)

/-- A new rowid is not in the table. -/
theorem nextRowid_not_mem (ids : List Int) (seq : Nat) : nextRowid ids seq ∉ ids := by
  intro h
  have := nextRowid_gt ids seq _ h
  omega

theorem find_append_fresh (rows : List Row) (row : Row) (h : row.id ∉ rows.map (·.id)) :
    (rows ++ [row]).find? (fun r => r.id == row.id) = some row := by
  induction rows with
  | nil => simp
  | cons a as ih =>
    simp only [List.map_cons, List.mem_cons, not_or] at h
    have hne : ¬ a.id = row.id := fun e => h.1 e.symm
    simp [List.find?_cons, hne]
    simpa using ih h.2

theorem find_none_of_not_mem (rows : List Row) (id : Int) (h : id ∉ rows.map (·.id)) :
    rows.find? (fun r => r.id == id) = none := by
  simp only [List.find?_eq_none, beq_iff_eq]
  intro r hr e
  exact h (List.mem_map.mpr ⟨r, hr, e⟩)

theorem any_false_of_not_mem (rows : List Row) (id : Int) (h : id ∉ rows.map (·.id)) :
    rows.any (fun r => r.id == id) = false := by
  simp only [List.any_eq_false, beq_iff_eq]
  intro r hr e
  exact h (List.mem_map.mpr ⟨r, hr, e⟩)

theorem any_true_of_mem (rows : List Row) (id : Int) (h : id ∈ rows.map (·.id)) :
    rows.any (fun r => r.id == id) = true := by
  obtain ⟨r, hr, e⟩ := List.mem_map.mp h
  simp only [List.any_eq_true, beq_iff_eq]
  exact ⟨r, hr, e⟩

/-- The loop of `getTodos` over a non-nil slice collects one struct per row, in order. -/
theorem foldl_append_some {α τ : Type} (f : α → τ) (rows : List α) (l : List τ) :
    rows.foldl (fun (acc : Slice τ) row => acc.append (f row)) (some l)
      = some (l ++ rows.map f) := by
  induction rows generalizing l with
  | nil => simp
  | cons a as ih =>
    rw [List.foldl_cons, show Slice.append (some l) (f a) = some (l ++ [f a]) from rfl, ih]
    simp

theorem find_map_keep_id (rows : List Row) (id : Int) (f : Row → Row)
    (hf : ∀ r, (f r).id = r.id) :
    (rows.map f).find? (fun r => r.id == id)
      = (rows.find? (fun r => r.id == id)).map f := by
  induction rows with
  | nil => simp
  | cons a as ih =>
    simp only [List.map_cons, List.find?_cons, hf]
    by_cases h : a.id = id
    · simp [h]
    · have hb : (a.id == id) = false := by simp [h]
      simp only [hb]
      exact ih

theorem find_some_of_mem (rows : List Row) (id : Int) (h : id ∈ rows.map (·.id)) :
    ∃ row, rows.find? (fun r => r.id == id) = some row ∧ row ∈ rows ∧ row.id = id := by
  induction rows with
  | nil => simp at h
  | cons a as ih =>
    by_cases ha : a.id = id
    · exact ⟨a, by simp [List.find?_cons, ha], List.mem_cons_self _ _, ha⟩
    · have h2 : id ∈ as.map (·.id) := by
        simp only [List.map_cons, List.mem_cons] at h
        rcases h with e | e
        · exact absurd e.symm ha
        · exact e
      obtain ⟨row, h3, h4, h5⟩ := ih h2
      exact ⟨row, by simp [List.find?_cons, ha, h3], List.mem_cons_of_mem _ h4, h5⟩

theorem not_mem_ids_filter (rows : List Row) (id : Int) :
    id ∉ (rows.filter (fun r => r.id != id)).map (·.id) := by
  intro h
  obtain ⟨r, hr, e⟩ := List.mem_map.mp h
  have := (List.mem_filter.mp hr).2
  simp [e] at this

/-! ## `src/main.go` -/

/-- C1, as the code has it: for every store that has not used the largest rowid (its counter
and all its ids are below 2^63 - 1) and every POST /todos whose body decodes to a todo with
title `t` and completed flag `c`, `createTodo` answers 201 with a todo whose id is the
positive rowid the store assigned (new to the table, whatever id the body carried), whose
timestamp is the time of the request, and a following GET /todos/{id} answers 200 with id,
`t` and `c`. -/
theorem createTodo_then_getTodo (timeParse : String → Option Time) (db : DB)
    (r r2 : Request Todo) (todo : Todo) (hbody : r.Body = .ok todo)
    (hseq : (db.seq : Int) < maxRowid) (hids : ∀ i ∈ db.ids, i < maxRowid) :
    ∃ id : Int, 0 < id ∧ id ≤ maxRowid ∧ id ∉ db.ids ∧ id = nextRowid db.ids db.seq ∧
      (Main.createTodo db ResponseWriter.fresh r).2.status = some StatusCreated ∧
      (Main.createTodo db ResponseWriter.fresh r).2.written
        = [Payload.object { ID := id, Title := todo.Title, Completed := todo.Completed,
                            CreatedAt := r.now }] ∧
      (Main.createTodo db ResponseWriter.fresh r).1.rows
        = db.rows ++ [{ id := id, title := todo.Title, completed := todo.Completed,
                        created_at := r.dbNow }] ∧
      (Main.getTodo timeParse (Main.createTodo db ResponseWriter.fresh r).1
          ResponseWriter.fresh r2 id).2.status = some StatusOK ∧
      (Main.getTodo timeParse (Main.createTodo db ResponseWriter.fresh r).1
          ResponseWriter.fresh r2 id).2.written
        = [Payload.object { ID := id, Title := todo.Title, Completed := todo.Completed,
                            CreatedAt := parseCreatedAt timeParse r.dbNow }] := by
  have hroom : ¬ maxRowid < nextRowid db.ids db.seq :=
    not_lt.mpr (nextRowid_le_max db.ids db.seq hseq hids)
  refine ⟨nextRowid db.ids db.seq, nextRowid_pos _ _, not_lt.mp hroom,
    nextRowid_not_mem _ _, rfl, ?_⟩
  have hfind := find_append_fresh db.rows
    { id := nextRowid db.ids db.seq, title := todo.Title, completed := todo.Completed,
      created_at := r.dbNow } (nextRowid_not_mem db.ids db.seq)
  simp only [Main.createTodo, hbody, DB.execInsert, hroom, if_false, Main.getTodo,
    DB.queryRowById, hfind]
  simp [ResponseWriter.fresh, ResponseWriter.setContentType, ResponseWriter.WriteHeader,
    ResponseWriter.Write, Row.toTodo, StatusOK]

theorem createTodo_then_getTodo_witness :
    (Sample.postMilk.Body = .ok Sample.milk ∧ (Sample.twoRows.seq : Int) < maxRowid ∧
      ∀ i ∈ Sample.twoRows.ids, i < maxRowid) ∧
    ∃ id : Int, 0 < id ∧ id ≤ maxRowid ∧ id ∉ Sample.twoRows.ids ∧
      id = nextRowid Sample.twoRows.ids Sample.twoRows.seq ∧
      (Main.createTodo Sample.twoRows ResponseWriter.fresh Sample.postMilk).2.status
        = some StatusCreated ∧
      (Main.createTodo Sample.twoRows ResponseWriter.fresh Sample.postMilk).2.written
        = [Payload.object { ID := id, Title := "buy milk", Completed := false,
                            CreatedAt := 1714557600 }] ∧
      (Main.createTodo Sample.twoRows ResponseWriter.fresh Sample.postMilk).1.rows
        = Sample.twoRows.rows ++ [{ id := id, title := "buy milk", completed := false,
                                    created_at := "2024-05-01T10:00:00Z" }] ∧
      (Main.getTodo Sample.noParse
          (Main.createTodo Sample.twoRows ResponseWriter.fresh Sample.postMilk).1
          ResponseWriter.fresh Sample.noBody id).2.status = some StatusOK ∧
      (Main.getTodo Sample.noParse
          (Main.createTodo Sample.twoRows ResponseWriter.fresh Sample.postMilk).1
          ResponseWriter.fresh Sample.noBody id).2.written
        = [Payload.object { ID := id, Title := "buy milk", Completed := false,
                            CreatedAt := parseCreatedAt Sample.noParse "2024-05-01T10:00:00Z" }] :=
  ⟨⟨rfl, by decide, by decide⟩,
    createTodo_then_getTodo Sample.noParse Sample.twoRows Sample.postMilk Sample.noBody
      Sample.milk rfl (by decide) (by decide)⟩

/-- C1, as stated, fails: on a store whose last row has the largest rowid, 2^63 - 1, the
INSERT of a POST /todos with the well-formed body `{"title":"buy milk","completed":false}`
finds no rowid left, and `createTodo` answers 500 with the error text and stores nothing. -/
theorem createTodo_full_counterexample :
    Sample.postMilk.Body = .ok Sample.milk ∧
    (Main.createTodo Sample.fullStore ResponseWriter.fresh Sample.postMilk).2.status
      = some 500 ∧
    (Main.createTodo Sample.fullStore ResponseWriter.fresh Sample.postMilk).2.written
      = [Payload.text "database or disk is full"] ∧
    (Main.createTodo Sample.fullStore ResponseWriter.fresh Sample.postMilk).1
      = Sample.fullStore ∧
    ¬ ((Main.createTodo Sample.fullStore ResponseWriter.fresh Sample.postMilk).2.status
        = some StatusCreated) :=
  ⟨rfl, by decide, by decide, by decide, by decide⟩

/-- When no rowid is left, `createTodo` answers 500 on a well-formed body and leaves the
store as it was. -/
theorem createTodo_full (db : DB) (r : Request Todo) (todo : Todo) (hbody : r.Body = .ok todo)
    (hfull : maxRowid < nextRowid db.ids db.seq) :
    (Main.createTodo db ResponseWriter.fresh r).2.status = some StatusInternalServerError ∧
    (Main.createTodo db ResponseWriter.fresh r).1 = db := by
  simp only [Main.createTodo, hbody, DB.execInsert, hfull, if_true]
  simp [httpError, ResponseWriter.fresh, ResponseWriter.setContentType,
    ResponseWriter.setXContentTypeOptions, ResponseWriter.WriteHeader, ResponseWriter.Write]

/-- C2: for every store and every id that no row has, GET, PUT with a well-formed body and
DELETE on /todos/{id} each answer 404 and leave the store as it was. -/
theorem missing_id_not_found (timeParse : String → Option Time) (db : DB)
    (rGet rPut rDel : Request Todo) (todo : Todo) (id : Int)
    (hid : id ∉ db.ids) (hbody : rPut.Body = .ok todo) :
    ((Main.getTodo timeParse db ResponseWriter.fresh rGet id).2.status = some StatusNotFound ∧
      (Main.getTodo timeParse db ResponseWriter.fresh rGet id).1 = db) ∧
    ((Main.updateTodo timeParse db ResponseWriter.fresh rPut id).2.status
        = some StatusNotFound ∧
      (Main.updateTodo timeParse db ResponseWriter.fresh rPut id).1 = db) ∧
    ((Main.deleteTodo db ResponseWriter.fresh rDel id).2.status = some StatusNotFound ∧
      (Main.deleteTodo db ResponseWriter.fresh rDel id).1 = db) := by
  have h1 := find_none_of_not_mem db.rows id hid
  have h2 := any_false_of_not_mem db.rows id hid
  simp only [Main.getTodo, Main.updateTodo, Main.deleteTodo, DB.queryRowById, DB.queryExists,
    h1, h2, hbody]
  simp [httpError, ResponseWriter.fresh, ResponseWriter.setContentType,
    ResponseWriter.setXContentTypeOptions, ResponseWriter.WriteHeader, ResponseWriter.Write]

theorem missing_id_not_found_witness :
    ((7 : Int) ∉ Sample.twoRows.ids ∧ Sample.putCat.Body = .ok Sample.cat) ∧
    ((Main.getTodo Sample.noParse Sample.twoRows ResponseWriter.fresh Sample.noBody 7).2.status
        = some StatusNotFound ∧
      (Main.getTodo Sample.noParse Sample.twoRows ResponseWriter.fresh Sample.noBody 7).1
        = Sample.twoRows) ∧
    ((Main.updateTodo Sample.noParse Sample.twoRows ResponseWriter.fresh Sample.putCat 7).2.status
        = some StatusNotFound ∧
      (Main.updateTodo Sample.noParse Sample.twoRows ResponseWriter.fresh Sample.putCat 7).1
        = Sample.twoRows) ∧
    ((Main.deleteTodo Sample.twoRows ResponseWriter.fresh Sample.noBody 7).2.status
        = some StatusNotFound ∧
      (Main.deleteTodo Sample.twoRows ResponseWriter.fresh Sample.noBody 7).1
        = Sample.twoRows) :=
  ⟨⟨by decide, rfl⟩,
    missing_id_not_found Sample.noParse Sample.twoRows Sample.noBody Sample.putCat Sample.noBody
      Sample.cat 7 (by decide) rfl⟩

/-- C3: for every store and every id that a row has, PUT /todos/{id} with a well-formed body
(title `t`, completed `c`) answers 200 with the updated todo; in the store the rows with that
id get title `t` and completed `c` and keep id and created_at, every other row is unchanged,
and no row is added or removed. -/
theorem updateTodo_existing (timeParse : String → Option Time) (db : DB) (r : Request Todo)
    (todo : Todo) (id : Int) (hid : id ∈ db.ids) (hbody : r.Body = .ok todo) :
    (Main.updateTodo timeParse db ResponseWriter.fresh r id).2.status = some StatusOK ∧
    (∃ row ∈ db.rows, row.id = id ∧
      (Main.updateTodo timeParse db ResponseWriter.fresh r id).2.written
        = [Payload.object { ID := id, Title := todo.Title, Completed := todo.Completed,
                            CreatedAt := parseCreatedAt timeParse row.created_at }]) ∧
    (Main.updateTodo timeParse db ResponseWriter.fresh r id).1.rows
      = db.rows.map (fun row =>
          if row.id = id then { row with title := todo.Title, completed := todo.Completed }
          else row) ∧
    (Main.updateTodo timeParse db ResponseWriter.fresh r id).1.seq = db.seq := by
  obtain ⟨row, hfind, hmem, hrow⟩ := find_some_of_mem db.rows id hid
  have hany := any_true_of_mem db.rows id hid
  have hmap := find_map_keep_id db.rows id
    (fun row => if row.id = id then { row with title := todo.Title, completed := todo.Completed }
      else row) (by intro r; by_cases h : r.id = id <;> simp [h])
  rw [hfind] at hmap
  simp only [Main.updateTodo, hbody, DB.queryExists, hany, DB.execUpdate, DB.queryRowById, hmap]
  refine ⟨?_, ⟨row, hmem, hrow, ?_⟩, ?_, ?_⟩ <;>
    simp [hrow, ResponseWriter.fresh, ResponseWriter.setContentType, ResponseWriter.Write,
      StatusOK]

theorem updateTodo_existing_witness :
    ((2 : Int) ∈ Sample.twoRows.ids ∧ Sample.putCat.Body = .ok Sample.cat) ∧
    (Main.updateTodo Sample.noParse Sample.twoRows ResponseWriter.fresh Sample.putCat 2).2.status
      = some StatusOK ∧
    (∃ row ∈ Sample.twoRows.rows, row.id = 2 ∧
      (Main.updateTodo Sample.noParse Sample.twoRows ResponseWriter.fresh
          Sample.putCat 2).2.written
        = [Payload.object { ID := 2, Title := Sample.cat.Title,
                            Completed := Sample.cat.Completed,
                            CreatedAt := parseCreatedAt Sample.noParse row.created_at }]) ∧
    (Main.updateTodo Sample.noParse Sample.twoRows ResponseWriter.fresh Sample.putCat 2).1.rows
      = Sample.twoRows.rows.map (fun row =>
          if row.id = 2 then { row with title := Sample.cat.Title,
                                        completed := Sample.cat.Completed }
          else row) ∧
    (Main.updateTodo Sample.noParse Sample.twoRows ResponseWriter.fresh Sample.putCat 2).1.seq
      = Sample.twoRows.seq :=
  ⟨⟨by decide, rfl⟩,
    updateTodo_existing Sample.noParse Sample.twoRows Sample.putCat Sample.cat 2 (by decide) rfl⟩

/-- C4: for every store and every id that a row has, DELETE /todos/{id} answers 204 with no
body, removes the rows with that id and keeps every other row as it was, and a following
GET /todos/{id} answers 404. -/
theorem deleteTodo_existing (timeParse : String → Option Time) (db : DB)
    (r r2 : Request Todo) (id : Int) (hid : id ∈ db.ids) :
    (Main.deleteTodo db ResponseWriter.fresh r id).2.status = some StatusNoContent ∧
    (Main.deleteTodo db ResponseWriter.fresh r id).2.written = [] ∧
    (Main.deleteTodo db ResponseWriter.fresh r id).1.rows
      = db.rows.filter (fun row => row.id != id) ∧
    (Main.deleteTodo db ResponseWriter.fresh r id).1.seq = db.seq ∧
    id ∉ (Main.deleteTodo db ResponseWriter.fresh r id).1.ids ∧
    (Main.getTodo timeParse (Main.deleteTodo db ResponseWriter.fresh r id).1
        ResponseWriter.fresh r2 id).2.status = some StatusNotFound := by
  have hany := any_true_of_mem db.rows id hid
  have hnot := not_mem_ids_filter db.rows id
  have hfind := find_none_of_not_mem _ id hnot
  simp only [Main.deleteTodo, DB.queryExists, hany, DB.execDelete, Main.getTodo,
    DB.queryRowById, hfind, DB.ids]
  refine ⟨?_, ?_, ?_, ?_, hnot, ?_⟩ <;>
    simp [httpError, ResponseWriter.fresh, ResponseWriter.setContentType,
      ResponseWriter.setXContentTypeOptions, ResponseWriter.WriteHeader, ResponseWriter.Write]

theorem deleteTodo_existing_witness :
    (1 : Int) ∈ Sample.twoRows.ids ∧
    (Main.deleteTodo Sample.twoRows ResponseWriter.fresh Sample.noBody 1).2.status
      = some StatusNoContent ∧
    (Main.deleteTodo Sample.twoRows ResponseWriter.fresh Sample.noBody 1).2.written = [] ∧
    (Main.deleteTodo Sample.twoRows ResponseWriter.fresh Sample.noBody 1).1.rows
      = Sample.twoRows.rows.filter (fun row => row.id != 1) ∧
    (Main.deleteTodo Sample.twoRows ResponseWriter.fresh Sample.noBody 1).1.seq
      = Sample.twoRows.seq ∧
    (1 : Int) ∉ (Main.deleteTodo Sample.twoRows ResponseWriter.fresh Sample.noBody 1).1.ids ∧
    (Main.getTodo Sample.noParse
        (Main.deleteTodo Sample.twoRows ResponseWriter.fresh Sample.noBody 1).1
        ResponseWriter.fresh Sample.noBody 1).2.status = some StatusNotFound :=
  ⟨by decide,
    deleteTodo_existing Sample.noParse Sample.twoRows Sample.noBody Sample.noBody 1 (by decide)⟩

/-- C5: for every store and every request whose body fails to decode, POST /todos answers 400
and PUT /todos/{id} answers 400 for every id, present in the store or not, and the store
after the request equals the store before it; the same holds for the layered variant and for
POST in the 02-go-todos variant. -/
theorem malformed_body_bad_request (timeParse : String → Option Time) (db : DB)
    (gdb : GoTodos.DB) (r : Request Todo) (g : Request GoTodos.Todo) (id : Int)
    (err gerr : String) (hbody : r.Body = .error err) (hg : g.Body = .error gerr) :
    (Main.createTodo db ResponseWriter.fresh r).2.status = some StatusBadRequest ∧
    (Main.createTodo db ResponseWriter.fresh r).1 = db ∧
    (Main.updateTodo timeParse db ResponseWriter.fresh r id).2.status
      = some StatusBadRequest ∧
    (Main.updateTodo timeParse db ResponseWriter.fresh r id).1 = db ∧
    (Handlers.createTodo db ResponseWriter.fresh r).2.status = some StatusBadRequest ∧
    (Handlers.createTodo db ResponseWriter.fresh r).1 = db ∧
    (Handlers.updateTodo timeParse db ResponseWriter.fresh r id).2.status
      = some StatusBadRequest ∧
    (Handlers.updateTodo timeParse db ResponseWriter.fresh r id).1 = db ∧
    (GoTodos.createTodoHandler gdb ResponseWriter.fresh g).2.status = some StatusBadRequest ∧
    (GoTodos.createTodoHandler gdb ResponseWriter.fresh g).1 = gdb := by
  simp only [Main.createTodo, Main.updateTodo, Handlers.createTodo, Handlers.updateTodo,
    GoTodos.createTodoHandler, hbody, hg]
  simp [httpError, ResponseWriter.fresh, ResponseWriter.setContentType,
    ResponseWriter.setXContentTypeOptions, ResponseWriter.WriteHeader, ResponseWriter.Write]

theorem malformed_body_bad_request_witness :
    (Sample.badBody.Body = .error "invalid character 'x'" ∧
      Sample.badBodyGoTodos.Body = .error "invalid character 'x'") ∧
    (Main.createTodo Sample.twoRows ResponseWriter.fresh Sample.badBody).2.status
      = some StatusBadRequest ∧
    (Main.createTodo Sample.twoRows ResponseWriter.fresh Sample.badBody).1 = Sample.twoRows ∧
    (Main.updateTodo Sample.noParse Sample.twoRows ResponseWriter.fresh Sample.badBody 2).2.status
      = some StatusBadRequest ∧
    (Main.updateTodo Sample.noParse Sample.twoRows ResponseWriter.fresh Sample.badBody 2).1
      = Sample.twoRows ∧
    (Handlers.createTodo Sample.twoRows ResponseWriter.fresh Sample.badBody).2.status
      = some StatusBadRequest ∧
    (Handlers.createTodo Sample.twoRows ResponseWriter.fresh Sample.badBody).1
      = Sample.twoRows ∧
    (Handlers.updateTodo Sample.noParse Sample.twoRows ResponseWriter.fresh
        Sample.badBody 2).2.status = some StatusBadRequest ∧
    (Handlers.updateTodo Sample.noParse Sample.twoRows ResponseWriter.fresh Sample.badBody 2).1
      = Sample.twoRows ∧
    (GoTodos.createTodoHandler { rows := [], seq := 0 } ResponseWriter.fresh
        Sample.badBodyGoTodos).2.status = some StatusBadRequest ∧
    (GoTodos.createTodoHandler { rows := [], seq := 0 } ResponseWriter.fresh
        Sample.badBodyGoTodos).1 = { rows := [], seq := 0 } :=
  ⟨⟨rfl, rfl⟩,
    malformed_body_bad_request Sample.noParse Sample.twoRows { rows := [], seq := 0 }
      Sample.badBody Sample.badBodyGoTodos 2 _ _ rfl rfl⟩

/-! ## GET /todos in the three HTTP variants -/

/-- The loop of `getTodosHandler` starts from the nil slice, which stays nil on an empty
table. -/
theorem foldl_append_nil {τ : Type} (rows : List τ) :
    rows.foldl (fun (acc : Slice τ) t => acc.append t) none
      = if rows.isEmpty then none else some rows := by
  cases rows with
  | nil => rfl
  | cons a as =>
    rw [List.foldl_cons, show Slice.append (none : Slice τ) a = some [a] from rfl]
    have h := foldl_append_some (fun t : τ => t) as [a]
    simp only [List.map_id_fun, id_eq] at h
    simp [h]

/-- C8: GET /todos answers 200 in the three HTTP variants.  In `src/main.go` and in the
layered handlers the body is the JSON array with one object per row, `[]` for the empty table.
In 02-go-todos the body is that array only when the table has a row: on the empty table the
slice is still nil and the body is `null`. -/
theorem getTodos_body (timeParse : String → Option Time) (db : DB) (gdb : GoTodos.DB)
    (r : Request Todo) (g : Request GoTodos.Todo) :
    ((Main.getTodos timeParse db ResponseWriter.fresh r).2.status = some StatusOK ∧
      (Main.getTodos timeParse db ResponseWriter.fresh r).2.written
        = [Payload.array (db.rows.map (Row.toTodo timeParse))]) ∧
    ((Handlers.getTodos timeParse db ResponseWriter.fresh r).2.status = some StatusOK ∧
      (Handlers.getTodos timeParse db ResponseWriter.fresh r).2.written
        = [Payload.array (db.rows.map (Row.toTodo timeParse))]) ∧
    ((GoTodos.getTodosHandler gdb ResponseWriter.fresh g).2.status = some StatusOK ∧
      (GoTodos.getTodosHandler gdb ResponseWriter.fresh g).2.written
        = [if gdb.rows.isEmpty then Payload.null else Payload.array gdb.rows]) ∧
    (GoTodos.getTodosHandler Sample.emptyGoTodos ResponseWriter.fresh g).2.written
      = [Payload.null] := by
  have h1 := foldl_append_some (Row.toTodo timeParse) db.rows []
  have h2 := foldl_append_nil gdb.rows
  simp only [List.nil_append] at h1
  simp only [Main.getTodos, Handlers.getTodos, GoTodos.getTodosHandler, DB.queryAll,
    GoTodos.DB.queryAll, h1, h2, Sample.emptyGoTodos]
  cases he : gdb.rows.isEmpty <;>
    simp [Slice.encode, ResponseWriter.fresh, ResponseWriter.setContentType,
      ResponseWriter.Write, StatusOK]

/-! ## Missing ids in 02-go-todos -/

theorem goTodos_map_of_not_mem (rows : List GoTodos.Todo) (id : Int) (f : GoTodos.Todo → GoTodos.Todo)
    (h : id ∉ rows.map (·.ID)) :
    rows.map (fun r => if r.ID = id then f r else r) = rows := by
  induction rows with
  | nil => rfl
  | cons a as ih =>
    simp only [List.map_cons, List.mem_cons, not_or] at h
    have hne : ¬ a.ID = id := fun e => h.1 e.symm
    simp only [List.map_cons, hne, if_false, ih h.2]

theorem goTodos_filter_of_not_mem (rows : List GoTodos.Todo) (id : Int)
    (h : id ∉ rows.map (·.ID)) :
    rows.filter (fun r => r.ID != id) = rows := by
  rw [List.filter_eq_self]
  intro r hr
  have hne : ¬ r.ID = id := fun e => h (List.mem_map.mpr ⟨r, hr, e⟩)
  simp [hne]

/-- C9, as the code has it: in 02-go-todos, for every store and every well-formed body whose
id no row has, `updateTodoHandler` answers 200 with the decoded todo and `deleteTodoHandler`
answers 200 with the message "Todo deleted"; neither changes the store. -/
theorem goTodos_missing_id_ok (gdb : GoTodos.DB) (g : Request GoTodos.Todo)
    (todo : GoTodos.Todo) (hbody : g.Body = .ok todo) (hid : todo.ID ∉ gdb.ids) :
    ((GoTodos.updateTodoHandler gdb ResponseWriter.fresh g).2.status = some StatusOK ∧
      (GoTodos.updateTodoHandler gdb ResponseWriter.fresh g).2.written
        = [Payload.object todo] ∧
      (GoTodos.updateTodoHandler gdb ResponseWriter.fresh g).1 = gdb) ∧
    ((GoTodos.deleteTodoHandler gdb ResponseWriter.fresh g).2.status = some StatusOK ∧
      (GoTodos.deleteTodoHandler gdb ResponseWriter.fresh g).2.written
        = [Payload.message "Todo deleted"] ∧
      (GoTodos.deleteTodoHandler gdb ResponseWriter.fresh g).1 = gdb) := by
  have h1 := goTodos_map_of_not_mem gdb.rows todo.ID
    (fun r => { r with Task := todo.Task, Completed := todo.Completed }) hid
  have h2 := goTodos_filter_of_not_mem gdb.rows todo.ID hid
  simp only [GoTodos.updateTodoHandler, GoTodos.deleteTodoHandler, hbody, GoTodos.DB.execUpdate,
    GoTodos.DB.execDelete, h1, h2]
  simp [ResponseWriter.fresh, ResponseWriter.Write, StatusOK]

theorem goTodos_missing_id_ok_witness :
    (Sample.putSeven.Body = .ok { ID := 7, Task := "feed cat", Completed := false } ∧
      (7 : Int) ∉ Sample.emptyGoTodos.ids) ∧
    ((GoTodos.updateTodoHandler Sample.emptyGoTodos ResponseWriter.fresh Sample.putSeven).2.status
        = some StatusOK ∧
      (GoTodos.updateTodoHandler Sample.emptyGoTodos ResponseWriter.fresh
          Sample.putSeven).2.written
        = [Payload.object { ID := 7, Task := "feed cat", Completed := false }] ∧
      (GoTodos.updateTodoHandler Sample.emptyGoTodos ResponseWriter.fresh Sample.putSeven).1
        = Sample.emptyGoTodos) ∧
    ((GoTodos.deleteTodoHandler Sample.emptyGoTodos ResponseWriter.fresh Sample.putSeven).2.status
        = some StatusOK ∧
      (GoTodos.deleteTodoHandler Sample.emptyGoTodos ResponseWriter.fresh
          Sample.putSeven).2.written
        = [Payload.message "Todo deleted"] ∧
      (GoTodos.deleteTodoHandler Sample.emptyGoTodos ResponseWriter.fresh Sample.putSeven).1
        = Sample.emptyGoTodos) :=
  ⟨⟨rfl, by decide⟩,
    goTodos_missing_id_ok Sample.emptyGoTodos Sample.putSeven
      { ID := 7, Task := "feed cat", Completed := false } rfl (by decide)⟩

/-- C9, as stated, fails: on the empty table a PUT and a DELETE with the well-formed body
`{"id":7,"task":"feed cat"}` are answered 200, not 404. -/
theorem goTodos_missing_id_counterexample :
    (7 : Int) ∉ Sample.emptyGoTodos.ids ∧
    (GoTodos.updateTodoHandler Sample.emptyGoTodos ResponseWriter.fresh Sample.putSeven).2.status
      = some 200 ∧
    (GoTodos.deleteTodoHandler Sample.emptyGoTodos ResponseWriter.fresh Sample.putSeven).2.status
      = some 200 ∧
    ¬ ((GoTodos.updateTodoHandler Sample.emptyGoTodos ResponseWriter.fresh
          Sample.putSeven).2.status = some StatusNotFound) ∧
    ¬ ((GoTodos.deleteTodoHandler Sample.emptyGoTodos ResponseWriter.fresh
          Sample.putSeven).2.status = some StatusNotFound) := by
  decide

/-! ## Immutable ids -/

theorem IdsKept.same (rows : List Row) : IdsKept rows rows := Or.inl rfl

theorem idsKept_insert (db : DB) (title : String) (completed : Bool) (dbNow : String) :
    IdsKept db.rows
      (db.rows ++ [{ id := nextRowid db.ids db.seq, title := title, completed := completed,
                     created_at := dbNow }]) :=
  Or.inr (Or.inr ⟨_, nextRowid_not_mem db.ids db.seq, rfl⟩)

theorem map_update_ids (rows : List Row) (id : Int) (title : String) (completed : Bool) :
    (rows.map (fun r =>
        if r.id = id then { r with title := title, completed := completed } else r)).map (·.id)
      = rows.map (·.id) := by
  rw [List.map_map]
  apply List.map_congr_left
  intro r _
  by_cases h : r.id = id <;> simp [h]

theorem main_createTodo_idsKept (db : DB) (w : ResponseWriter Todo) (r : Request Todo) :
    IdsKept db.rows (Main.createTodo db w r).1.rows := by
  unfold Main.createTodo
  cases r.Body with
  | error e => exact IdsKept.same _
  | ok todo =>
    by_cases hfull : maxRowid < nextRowid db.ids db.seq
    · simp only [DB.execInsert, hfull, if_true]
      exact IdsKept.same _
    · simp only [DB.execInsert, hfull, if_false]
      exact idsKept_insert db _ _ _

theorem main_updateTodo_ids (timeParse : String → Option Time) (db : DB)
    (w : ResponseWriter Todo) (r : Request Todo) (id : Int) :
    (Main.updateTodo timeParse db w r id).1.rows.map (·.id) = db.rows.map (·.id) := by
  unfold Main.updateTodo
  cases r.Body with
  | error e => rfl
  | ok todo =>
    simp only [DB.queryExists, DB.execUpdate, DB.queryRowById]
    cases db.rows.any (fun r => r.id == id) with
    | false => rfl
    | true =>
      simp only
      split <;> exact map_update_ids _ _ _ _

theorem main_deleteTodo_idsKept (db : DB) (w : ResponseWriter Todo) (r : Request Todo)
    (id : Int) : IdsKept db.rows (Main.deleteTodo db w r id).1.rows := by
  unfold Main.deleteTodo
  simp only [DB.queryExists, DB.execDelete]
  cases db.rows.any (fun r => r.id == id) with
  | false => exact IdsKept.same _
  | true => exact Or.inr (Or.inl ⟨id, rfl⟩)

theorem main_getTodo_store (timeParse : String → Option Time) (db : DB)
    (w : ResponseWriter Todo) (r : Request Todo) (id : Int) :
    (Main.getTodo timeParse db w r id).1 = db := by
  unfold Main.getTodo
  simp only [DB.queryRowById]
  cases db.rows.find? (fun r => r.id == id) <;> rfl

theorem handlers_createTodo_idsKept (db : DB) (w : ResponseWriter Todo) (r : Request Todo) :
    IdsKept db.rows (Handlers.createTodo db w r).1.rows := by
  unfold Handlers.createTodo
  cases r.Body with
  | error e => exact IdsKept.same _
  | ok todo =>
    by_cases hfull : maxRowid < nextRowid db.ids db.seq
    · simp only [DB.execInsert, hfull, if_true]
      exact IdsKept.same _
    · simp only [DB.execInsert, hfull, if_false]
      exact idsKept_insert db _ _ _

theorem handlers_updateTodo_ids (timeParse : String → Option Time) (db : DB)
    (w : ResponseWriter Todo) (r : Request Todo) (id : Int) :
    (Handlers.updateTodo timeParse db w r id).1.rows.map (·.id) = db.rows.map (·.id) := by
  unfold Handlers.updateTodo
  cases r.Body with
  | error e => rfl
  | ok todo =>
    simp only [DB.queryExists, DB.execUpdate, DB.queryRowById]
    cases db.rows.any (fun r => r.id == id) with
    | false => rfl
    | true =>
      simp only
      split <;> exact map_update_ids _ _ _ _

theorem handlers_deleteTodo_idsKept (db : DB) (w : ResponseWriter Todo) (r : Request Todo)
    (id : Int) : IdsKept db.rows (Handlers.deleteTodo db w r id).1.rows := by
  unfold Handlers.deleteTodo
  simp only [DB.queryExists, DB.execDelete]
  cases db.rows.any (fun r => r.id == id) with
  | false => exact IdsKept.same _
  | true => exact Or.inr (Or.inl ⟨id, rfl⟩)

theorem handlers_getTodo_store (timeParse : String → Option Time) (db : DB)
    (w : ResponseWriter Todo) (r : Request Todo) (id : Int) :
    (Handlers.getTodo timeParse db w r id).1 = db := by
  unfold Handlers.getTodo
  simp only [DB.queryRowById]
  cases db.rows.find? (fun r => r.id == id) <;> rfl

theorem main_handleTodos_idsKept (timeParse : String → Option Time) (db : DB)
    (w : ResponseWriter Todo) (r : Request Todo) :
    IdsKept db.rows (Main.handleTodos timeParse db w r).1.rows := by
  unfold Main.handleTodos
  split
  · exact IdsKept.same _
  · split
    · exact main_createTodo_idsKept db w r
    · exact IdsKept.same _

theorem main_handleTodo_idsKept (timeParse : String → Option Time) (db : DB)
    (w : ResponseWriter Todo) (r : Request Todo) :
    IdsKept db.rows (Main.handleTodo timeParse db w r).1.rows := by
  unfold Main.handleTodo
  split
  · exact IdsKept.same _
  · split
    · rw [main_getTodo_store]; exact IdsKept.same _
    · split
      · exact Or.inl (main_updateTodo_ids timeParse db w r _)
      · split
        · exact main_deleteTodo_idsKept db w r _
        · exact IdsKept.same _

theorem handlers_HandleTodos_idsKept (timeParse : String → Option Time) (db : DB)
    (w : ResponseWriter Todo) (r : Request Todo) :
    IdsKept db.rows (Handlers.HandleTodos timeParse db w r).1.rows := by
  unfold Handlers.HandleTodos
  split
  · exact IdsKept.same _
  · split
    · exact handlers_createTodo_idsKept db w r
    · exact IdsKept.same _

theorem handlers_HandleTodo_idsKept (timeParse : String → Option Time) (db : DB)
    (w : ResponseWriter Todo) (r : Request Todo) :
    IdsKept db.rows (Handlers.HandleTodo timeParse db w r).1.rows := by
  unfold Handlers.HandleTodo
  simp only
  split
  · exact IdsKept.same _
  · split
    · exact IdsKept.same _
    · split
      · rw [handlers_getTodo_store]; exact IdsKept.same _
      · split
        · exact Or.inl (handlers_updateTodo_ids timeParse db w r _)
        · split
          · exact handlers_deleteTodo_idsKept db w r _
          · exact IdsKept.same _

theorem main_updateTodo_reports_path_id (timeParse : String → Option Time) (db : DB)
    (r : Request Todo) (todo : Todo) (id : Int) (hid : id ∈ db.ids)
    (hbody : r.Body = .ok todo) :
    ∃ t : Todo, (Main.updateTodo timeParse db ResponseWriter.fresh r id).2.written
      = [Payload.object t] ∧ t.ID = id := by
  obtain ⟨row, hfind, _, hrow⟩ := find_some_of_mem db.rows id hid
  have hany := any_true_of_mem db.rows id hid
  have hmap := find_map_keep_id db.rows id
    (fun row => if row.id = id then { row with title := todo.Title, completed := todo.Completed }
      else row) (by intro r; by_cases h : r.id = id <;> simp [h])
  rw [hfind] at hmap
  simp only [Main.updateTodo, hbody, DB.queryExists, hany, DB.execUpdate, DB.queryRowById, hmap]
  refine ⟨{ ID := id, Title := todo.Title, Completed := todo.Completed,
            CreatedAt := parseCreatedAt timeParse row.created_at }, ?_, rfl⟩
  simp [hrow, ResponseWriter.fresh, ResponseWriter.setContentType, ResponseWriter.Write]

theorem handlers_updateTodo_reports_path_id (timeParse : String → Option Time) (db : DB)
    (r : Request Todo) (todo : Todo) (id : Int) (hid : id ∈ db.ids)
    (hbody : r.Body = .ok todo) :
    ∃ t : Todo, (Handlers.updateTodo timeParse db ResponseWriter.fresh r id).2.written
      = [Payload.object t] ∧ t.ID = id := by
  obtain ⟨row, hfind, _, hrow⟩ := find_some_of_mem db.rows id hid
  have hany := any_true_of_mem db.rows id hid
  have hmap := find_map_keep_id db.rows id
    (fun row => if row.id = id then { row with title := todo.Title, completed := todo.Completed }
      else row) (by intro r; by_cases h : r.id = id <;> simp [h])
  rw [hfind] at hmap
  simp only [Handlers.updateTodo, hbody, DB.queryExists, hany, DB.execUpdate, DB.queryRowById,
    hmap]
  refine ⟨{ ID := id, Title := todo.Title, Completed := todo.Completed,
            CreatedAt := parseCreatedAt timeParse row.created_at }, ?_, rfl⟩
  simp [hrow, ResponseWriter.fresh, ResponseWriter.Write]

/-- C10: the id of a row never changes.  For every store and every request given to the
handlers of `src/main.go` (`handleTodos`, `handleTodo`) or of the layered package
(`HandleTodos`, `HandleTodo`), the rows kept by the request have the ids they had before
(`IdsKept`).  In particular a PUT /todos/{id} on an existing id leaves the ids of the table as
they were, whatever id the body carries, and the todo in the response has the id of the
path. -/
theorem id_immutable (timeParse : String → Option Time) (db : DB) (w : ResponseWriter Todo)
    (r : Request Todo) :
    IdsKept db.rows (Main.handleTodos timeParse db w r).1.rows ∧
    IdsKept db.rows (Main.handleTodo timeParse db w r).1.rows ∧
    IdsKept db.rows (Handlers.HandleTodos timeParse db w r).1.rows ∧
    IdsKept db.rows (Handlers.HandleTodo timeParse db w r).1.rows ∧
    (∀ (todo : Todo) (id : Int), r.Body = .ok todo → id ∈ db.ids →
      (Main.updateTodo timeParse db ResponseWriter.fresh r id).1.ids = db.ids ∧
      (∃ t : Todo, (Main.updateTodo timeParse db ResponseWriter.fresh r id).2.written
          = [Payload.object t] ∧ t.ID = id) ∧
      (Handlers.updateTodo timeParse db ResponseWriter.fresh r id).1.ids = db.ids ∧
      (∃ t : Todo, (Handlers.updateTodo timeParse db ResponseWriter.fresh r id).2.written
          = [Payload.object t] ∧ t.ID = id)) :=
  ⟨main_handleTodos_idsKept timeParse db w r, main_handleTodo_idsKept timeParse db w r,
    handlers_HandleTodos_idsKept timeParse db w r, handlers_HandleTodo_idsKept timeParse db w r,
    fun todo id hbody hid =>
      ⟨main_updateTodo_ids timeParse db _ r id,
        main_updateTodo_reports_path_id timeParse db r todo id hid hbody,
        handlers_updateTodo_ids timeParse db _ r id,
        handlers_updateTodo_reports_path_id timeParse db r todo id hid hbody⟩⟩

theorem id_immutable_witness :
    (Sample.putCat.Body = .ok Sample.cat ∧ (2 : Int) ∈ Sample.twoRows.ids ∧
      Sample.cat.ID ≠ 2) ∧
    ((Main.updateTodo Sample.noParse Sample.twoRows ResponseWriter.fresh Sample.putCat 2).1.ids
        = Sample.twoRows.ids ∧
      (∃ t : Todo,
        (Main.updateTodo Sample.noParse Sample.twoRows ResponseWriter.fresh
            Sample.putCat 2).2.written = [Payload.object t] ∧ t.ID = 2) ∧
      (Handlers.updateTodo Sample.noParse Sample.twoRows ResponseWriter.fresh
          Sample.putCat 2).1.ids = Sample.twoRows.ids ∧
      (∃ t : Todo,
        (Handlers.updateTodo Sample.noParse Sample.twoRows ResponseWriter.fresh
            Sample.putCat 2).2.written = [Payload.object t] ∧ t.ID = 2)) ∧
    (Main.handleTodo Sample.noParse Sample.twoRows ResponseWriter.fresh Sample.putCat).2.written
      = [Payload.object { ID := 2, Title := "feed cat", Completed := true, CreatedAt := 0 }] ∧
    (Handlers.HandleTodo Sample.noParse Sample.twoRows ResponseWriter.fresh
        Sample.putCat).2.written
      = [Payload.object { ID := 2, Title := "feed cat", Completed := true, CreatedAt := 0 }] :=
  ⟨⟨rfl, by decide, by decide⟩,
    (id_immutable Sample.noParse Sample.twoRows ResponseWriter.fresh Sample.putCat).2.2.2.2
      Sample.cat 2 rfl (by decide),
    by decide, by decide⟩

/-! ## The REPL: the statement of `find` -/

/-- Without a wildcard, a pattern matches exactly the texts equal to it up to ASCII case. -/
theorem patternCompare_literal (ps text : List Char) (hp : ∀ c ∈ ps, c ≠ '%' ∧ c ≠ '_') :
    BareTasks.patternCompare ps text = true
      ↔ ps.map BareTasks.asciiLower = text.map BareTasks.asciiLower := by
  induction ps generalizing text with
  | nil => cases text <;> simp [BareTasks.patternCompare]
  | cons c cs ih =>
    have hc := hp c (List.mem_cons_self _ _)
    have hcs : ∀ d ∈ cs, d ≠ '%' ∧ d ≠ '_' := fun d hd => hp d (List.mem_cons_of_mem _ hd)
    cases text with
    | nil => simp [BareTasks.patternCompare, hc.1]
    | cons d ds =>
      simp [BareTasks.patternCompare, hc.1, hc.2, BareTasks.likeCharEq, ih ds hcs]

/-- A rest of pattern that accepts the empty text accepts some suffix of every text. -/
theorem anySuffix_of_nil (f : List Char → Bool) (text : List Char) (hf : f [] = true) :
    BareTasks.anySuffix f text = true := by
  induction text with
  | nil => simpa [BareTasks.anySuffix] using hf
  | cons d ds ih => simp [BareTasks.anySuffix, ih]

/-- A literal followed by `%` matches the texts that start with it up to ASCII case. -/
theorem patternCompare_literal_percent (ps text : List Char) (hp : ∀ c ∈ ps, c ≠ '%' ∧ c ≠ '_') :
    BareTasks.patternCompare (ps ++ ['%']) text = true
      ↔ ps.map BareTasks.asciiLower <+: text.map BareTasks.asciiLower := by
  induction ps generalizing text with
  | nil =>
    simp only [List.nil_append, List.map_nil, List.nil_prefix, iff_true]
    have h : BareTasks.patternCompare ['%'] text = BareTasks.anySuffix (BareTasks.patternCompare []) text := rfl
    rw [h]
    exact anySuffix_of_nil _ text rfl
  | cons c cs ih =>
    have hc := hp c (List.mem_cons_self _ _)
    have hcs : ∀ d ∈ cs, d ≠ '%' ∧ d ≠ '_' := fun d hd => hp d (List.mem_cons_of_mem _ hd)
    cases text with
    | nil => simp [BareTasks.patternCompare, hc.1]
    | cons d ds =>
      simp [BareTasks.patternCompare, hc.1, hc.2, BareTasks.likeCharEq, ih ds hcs]

/-- A literal between two `%` matches the texts that contain it up to ASCII case. -/
theorem patternCompare_percent_literal_percent (ps text : List Char)
    (hp : ∀ c ∈ ps, c ≠ '%' ∧ c ≠ '_') :
    BareTasks.patternCompare ('%' :: (ps ++ ['%'])) text = true
      ↔ ps.map BareTasks.asciiLower <:+: text.map BareTasks.asciiLower := by
  have hstep : ∀ t : List Char,
      BareTasks.anySuffix (BareTasks.patternCompare (ps ++ ['%'])) t = true
        ↔ ps.map BareTasks.asciiLower <:+: t.map BareTasks.asciiLower := by
    intro t
    induction t with
    | nil =>
      simp only [BareTasks.anySuffix, patternCompare_literal_percent ps [] hp, List.map_nil,
        List.prefix_nil, List.infix_nil]
    | cons d ds ih =>
      simp only [BareTasks.anySuffix, Bool.or_eq_true, patternCompare_literal_percent ps (d :: ds) hp, ih,
        List.map_cons, List.infix_cons_iff]
  simpa [BareTasks.patternCompare] using hstep text

/-- With a pattern within the length limit, stepping yields the rows that satisfy the
condition, in table order. -/
theorem stepFind_of_short (idEq : Int → String → Bool) (pattern query : String)
    (rows : List BareTasks.Todo) (hlen : pattern.utf8ByteSize ≤ BareTasks.likePatternLimit) :
    BareTasks.stepFind idEq pattern query rows
      = rows.filter (fun t =>
          BareTasks.patternCompare pattern.toList t.Title.toList || idEq t.Id query) := by
  have hlt : ¬ BareTasks.likePatternLimit < pattern.utf8ByteSize := not_lt.mpr hlen
  induction rows with
  | nil => rfl
  | cons t ts ih =>
    simp only [BareTasks.stepFind, BareTasks.like, hlt, if_false, ih, List.filter_cons]

/-- With a pattern over the length limit, the first step fails and no row is yielded. -/
theorem stepFind_of_long (idEq : Int → String → Bool) (pattern query : String)
    (rows : List BareTasks.Todo) (hlen : BareTasks.likePatternLimit < pattern.utf8ByteSize) :
    BareTasks.stepFind idEq pattern query rows = [] := by
  cases rows with
  | nil => rfl
  | cons t ts => simp only [BareTasks.stepFind, BareTasks.like, hlen, if_true]

/-- What `findTodos` does when `db` is an open handle on a table and the pattern `%q%` is
within the length limit: it prints exactly the rows whose title matches the LIKE pattern
`%q%` or whose id the store finds equal to `q`, in table order, and the line "No matching
todos found." when there is none.  For a `q` without `%` and `_` the title matches exactly
when it contains `q` up to the case of ASCII letters. -/
theorem findTodos_open_handle (idEq : Int → String → Bool) (p : BareTasks.Proc)
    (h : BareTasks.Handle) (s : BareTasks.Store) (q : String)
    (hdb : p.db = some h) (hfile : p.file = some s)
    (hlen : ("%" ++ q ++ "%").utf8ByteSize ≤ BareTasks.likePatternLimit) :
    BareTasks.findTodos idEq p q
      = .ok { p with out := p.out ++
                if (s.rows.filter (fun t =>
                      BareTasks.patternCompare ('%' :: (q.toList ++ ['%'])) t.Title.toList
                        || idEq t.Id q)).isEmpty
                then ["No matching todos found.\n"]
                else (s.rows.filter (fun t =>
                      BareTasks.patternCompare ('%' :: (q.toList ++ ['%'])) t.Title.toList
                        || idEq t.Id q)).map BareTasks.formatTodo } ∧
    ((∀ c ∈ q.toList, c ≠ '%' ∧ c ≠ '_') →
      ∀ t : BareTasks.Todo,
        (BareTasks.patternCompare ('%' :: (q.toList ++ ['%'])) t.Title.toList = true ↔
          q.toList.map BareTasks.asciiLower <:+: t.Title.toList.map BareTasks.asciiLower)) := by
  have hpat : ("%" ++ q ++ "%").toList = '%' :: (q.toList ++ ['%']) := by
    simp [String.toList]
  refine ⟨?_, ?_⟩
  · simp only [BareTasks.findTodos, hdb, hfile, BareTasks.Store.find,
      stepFind_of_short idEq _ q s.rows hlen, hpat]
    generalize s.rows.filter (fun t =>
        BareTasks.patternCompare ('%' :: (q.toList ++ ['%'])) t.Title.toList
          || idEq t.Id q) = rows
    cases rows with
    | nil => simp [BareTasks.println]
    | cons t ts => simp
  · intro hq t
    exact patternCompare_percent_literal_percent q.toList t.Title.toList hq

/-- With an open handle and a pattern over the length limit, `findTodos` prints no row. -/
theorem findTodos_long_pattern (idEq : Int → String → Bool) (p : BareTasks.Proc)
    (h : BareTasks.Handle) (s : BareTasks.Store) (q : String)
    (hdb : p.db = some h) (hfile : p.file = some s)
    (hlen : BareTasks.likePatternLimit < ("%" ++ q ++ "%").utf8ByteSize) :
    BareTasks.findTodos idEq p q
      = .ok { p with out := p.out ++ ["No matching todos found.\n"] } := by
  simp only [BareTasks.findTodos, hdb, hfile, BareTasks.Store.find,
    stepFind_of_long idEq _ q s.rows hlen]
  simp [BareTasks.println]

/-- An instance: on a table whose only row is `1. buy milk`, with an open handle and an id
comparison that rejects the text, `find MILK` and `find b_y` print the row. -/
theorem findTodos_open_handle_example :
    BareTasks.findTodos (fun _ _ => false) Sample.cliProc "MILK"
      = .ok { Sample.cliProc with out := ["1. buy milk\n"] } ∧
    BareTasks.findTodos (fun _ _ => false) Sample.cliProc "b_y"
      = .ok { Sample.cliProc with out := ["1. buy milk\n"] } ∧
    BareTasks.findTodos (fun _ _ => false) Sample.cliProc "tea"
      = .ok { Sample.cliProc with out := ["No matching todos found.\n"] } :=
  ⟨rfl, rfl, rfl⟩

/-! ## The REPL: `add` then `show` -/

/-- Every `add` command entered in the REPL started by `main` ends the process with a panic:
`db` is nil when `addTodo` calls `db.Exec`.  No row is stored and nothing but the first prompt
is printed. -/
theorem main_add_panics (idEq : Int → String → Bool) (file : Option BareTasks.Store)
    (line : String) (rest : List String)
    (hadd : BareTasks.HasPrefix (BareTasks.TrimSpace line.toList) "add ".toList = true) :
    BareTasks.main idEq file (line :: rest)
      = ({ db := none, file := some (file.getD { rows := [], seq := 0 }), offset := 0,
           out := ["> "], log := [] }, BareTasks.Status.panicked) := by
  simp only [BareTasks.main, BareTasks.run, BareTasks.step, BareTasks.command, hadd,
    eq_self_iff_true, if_true, BareTasks.initDB, BareTasks.prompt, BareTasks.addTodo,
    List.nil_append]

/-- C7 at a concrete input: on any database file, `add buy milk` followed by `show` in the
REPL started by `main` stores no row and lists nothing; the process panics in `addTodo`
because `initDB` left the package variable `db` nil. -/
theorem main_add_show_panics (idEq : Int → String → Bool) (file : Option BareTasks.Store) :
    BareTasks.main idEq file ["add buy milk\n", "show\n"]
      = ({ db := none, file := some (file.getD { rows := [], seq := 0 }), offset := 0,
           out := ["> "], log := [] }, BareTasks.Status.panicked) ∧
    BareTasks.main idEq (some { rows := [], seq := 0 }) ["show\n"]
      = ({ db := none, file := some { rows := [], seq := 0 }, offset := 0,
           out := ["> "], log := [] }, BareTasks.Status.panicked) :=
  ⟨rfl, rfl⟩

/-- In a process whose `db` is nil, a turn of the command loop either panics with the process
as it was (`add`, `show`, `find`), or says goodbye and exits, or reports an unknown command
and prompts again. -/
theorem command_nil (idEq : Int → String → Bool) (p : BareTasks.Proc) (line : String)
    (hdb : p.db = none) :
    BareTasks.command idEq p line = (p, BareTasks.Status.panicked) ∨
    BareTasks.command idEq p line
      = (BareTasks.println p "Goodbye!", BareTasks.Status.exited) ∨
    BareTasks.command idEq p line
      = (BareTasks.prompt
          (BareTasks.println p "Unknown command. Use 'add', 'show', 'find', or 'exit'."),
          BareTasks.Status.waiting BareTasks.Mode.command) := by
  simp only [BareTasks.command, BareTasks.addTodo, BareTasks.showTodos, BareTasks.findTodos,
    hdb]
  split_ifs <;> simp

/-- In the REPL started by `main`, a line that is an `add`, `show` or `find` command ends the
process with a panic, whatever the database file holds: nothing is stored or printed. -/
theorem main_store_command_panics (idEq : Int → String → Bool)
    (file : Option BareTasks.Store) (line : String) (rest : List String)
    (hcmd : BareTasks.HasPrefix (BareTasks.TrimSpace line.toList) "add ".toList = true ∨
      BareTasks.TrimSpace line.toList = "show".toList ∨
      BareTasks.HasPrefix (BareTasks.TrimSpace line.toList) "find ".toList = true) :
    BareTasks.main idEq file (line :: rest)
      = ({ db := none, file := some (file.getD { rows := [], seq := 0 }), offset := 0,
           out := ["> "], log := [] }, BareTasks.Status.panicked) := by
  simp only [BareTasks.main, BareTasks.run, BareTasks.step, BareTasks.command,
    BareTasks.initDB, BareTasks.prompt, BareTasks.addTodo, BareTasks.showTodos,
    BareTasks.findTodos, List.nil_append]
  rcases hcmd with h | h | h
  · simp only [h, if_true]
  · split_ifs <;> rfl
  · split_ifs <;> rfl

/-- Whatever is typed, the REPL started by `main` keeps `db` nil, the offset 0 and the
database file as `initDB` left it, never shows a page, and prints nothing but prompts, the
unknown-command message and the farewell. -/
theorem run_nil (idEq : Int → String → Bool) (stdin : List String) (p : BareTasks.Proc)
    (hdb : p.db = none) (hoff : p.offset = 0)
    (hout : ∀ l ∈ p.out, l ∈ ["> ", "Goodbye!\n",
      "Unknown command. Use 'add', 'show', 'find', or 'exit'.\n"]) :
    (BareTasks.run idEq p BareTasks.Mode.command stdin).1.db = none ∧
    (BareTasks.run idEq p BareTasks.Mode.command stdin).1.offset = 0 ∧
    (BareTasks.run idEq p BareTasks.Mode.command stdin).1.file = p.file ∧
    (BareTasks.run idEq p BareTasks.Mode.command stdin).2
      ≠ BareTasks.Status.waiting BareTasks.Mode.pager ∧
    (∀ l ∈ (BareTasks.run idEq p BareTasks.Mode.command stdin).1.out,
      l ∈ ["> ", "Goodbye!\n", "Unknown command. Use 'add', 'show', 'find', or 'exit'.\n"]) := by
  induction stdin generalizing p with
  | nil => exact ⟨hdb, hoff, rfl, by simp [BareTasks.run], hout⟩
  | cons line rest ih =>
    rcases command_nil idEq p line hdb with h | h | h
    · have hrun : BareTasks.run idEq p BareTasks.Mode.command (line :: rest)
          = (p, BareTasks.Status.panicked) := by
        simp only [BareTasks.run, BareTasks.step, h]
      rw [hrun]
      exact ⟨hdb, hoff, rfl, by simp, hout⟩
    · have hrun : BareTasks.run idEq p BareTasks.Mode.command (line :: rest)
          = (BareTasks.println p "Goodbye!", BareTasks.Status.exited) := by
        simp only [BareTasks.run, BareTasks.step, h]
      rw [hrun]
      refine ⟨hdb, hoff, rfl, by simp, ?_⟩
      intro l hl
      simp only [BareTasks.println, List.mem_append, List.mem_singleton] at hl
      rcases hl with hl | hl
      · exact hout l hl
      · simp [hl]
    · have hrun : BareTasks.run idEq p BareTasks.Mode.command (line :: rest)
          = BareTasks.run idEq
              (BareTasks.prompt (BareTasks.println p
                "Unknown command. Use 'add', 'show', 'find', or 'exit'."))
              BareTasks.Mode.command rest := by
        simp only [BareTasks.run, BareTasks.step, h]
      rw [hrun]
      have hnext := ih
        (BareTasks.prompt
          (BareTasks.println p "Unknown command. Use 'add', 'show', 'find', or 'exit'."))
        hdb hoff (by
          intro l hl
          simp only [BareTasks.prompt, BareTasks.println, List.mem_append,
            List.mem_singleton] at hl
          rcases hl with (hl | hl) | hl
          · exact hout l hl
          · simp [hl]
          · simp [hl])
      exact hnext

/-- The REPL started by `main` never lists a row. -/
theorem main_never_lists (idEq : Int → String → Bool) (file : Option BareTasks.Store)
    (stdin : List String) :
    (BareTasks.main idEq file stdin).1.db = none ∧
    (BareTasks.main idEq file stdin).1.offset = 0 ∧
    (BareTasks.main idEq file stdin).1.file = some (file.getD { rows := [], seq := 0 }) ∧
    (BareTasks.main idEq file stdin).2 ≠ BareTasks.Status.waiting BareTasks.Mode.pager ∧
    (∀ l ∈ (BareTasks.main idEq file stdin).1.out,
      l ∈ ["> ", "Goodbye!\n", "Unknown command. Use 'add', 'show', 'find', or 'exit'.\n"]) := by
  unfold BareTasks.main
  exact run_nil idEq stdin _ rfl rfl (by simp [BareTasks.prompt, BareTasks.initDB])

/-! ## The REPL: `find` -/

/-- C11 at a concrete input: in the REPL started by `main`, `show` prints no page, on any
database file and on one whose table holds 25 rows: `showTodos` calls `db.Query` through the
package variable `db`, which `initDB` left nil, and the process panics.  The pager is not
entered, the Enter and `q` typed after `show` are not read, and the offset is still 0. -/
theorem main_show_panics (idEq : Int → String → Bool) (file : Option BareTasks.Store) :
    BareTasks.main idEq file ["show\n", "\n", "q\n"]
      = ({ db := none, file := some (file.getD { rows := [], seq := 0 }), offset := 0,
           out := ["> "], log := [] }, BareTasks.Status.panicked) ∧
    BareTasks.main idEq Sample.pagedProc.file ["show\n", "\n", "q\n"]
      = ({ db := none, file := Sample.pagedProc.file, offset := 0, out := ["> "], log := [] },
          BareTasks.Status.panicked) ∧
    BareTasks.main idEq Sample.pagedProc.file ["next\n", "show\n"]
      = ({ db := none, file := Sample.pagedProc.file, offset := 0,
           out := ["> ", "Unknown command. Use 'add', 'show', 'find', or 'exit'.\n", "> "],
           log := [] }, BareTasks.Status.panicked) :=
  ⟨rfl, rfl, rfl⟩

/-! ## The REPL: the cursor of `show` with an open handle -/

theorem addTodo_offset (p q : BareTasks.Proc) (title : String) :
    (BareTasks.addTodo p title = .ok q → q.offset = p.offset) ∧
    (BareTasks.addTodo p title = .error q → q.offset = p.offset) := by
  unfold BareTasks.addTodo
  cases p.db with
  | none =>
    constructor
    · intro h
      simp at h
    · intro h
      simp at h
      rw [← h]
  | some hd =>
    cases p.file with
    | none =>
      constructor <;> intro h <;> simp at h
      rw [← h]; rfl
    | some s =>
      constructor
      · intro h
        simp only at h
        split at h
        · simp at h
          rw [← h]
          rfl
        · simp at h
          rw [← h]
          rfl
      · intro h
        simp only at h
        split at h <;> simp at h

theorem showTodos_offset (p q : BareTasks.Proc) (offset count : Int) :
    (BareTasks.showTodos p offset = .ok (count, q) → q.offset = p.offset) ∧
    (BareTasks.showTodos p offset = .error q → q.offset = p.offset) := by
  unfold BareTasks.showTodos
  cases p.db with
  | none =>
    constructor
    · intro h
      simp at h
    · intro h
      simp at h
      rw [← h]
  | some hd =>
    cases p.file with
    | none =>
      constructor <;> intro h <;> simp at h
      rw [← h.2]; rfl
    | some s =>
      constructor <;> intro h <;> simp at h
      rw [← h.2]

theorem findTodos_offset (idEq : Int → String → Bool) (p q : BareTasks.Proc) (query : String) :
    (BareTasks.findTodos idEq p query = .ok q → q.offset = p.offset) ∧
    (BareTasks.findTodos idEq p query = .error q → q.offset = p.offset) := by
  unfold BareTasks.findTodos
  cases p.db with
  | none =>
    constructor
    · intro h
      simp at h
    · intro h
      simp at h
      rw [← h]
  | some hd =>
    cases p.file with
    | none =>
      constructor <;> intro h <;> simp at h
      rw [← h]; rfl
    | some s =>
      constructor <;> intro h <;> simp only at h
      · split at h
        · simp at h
          rw [← h]
          rfl
        · simp at h
          rw [← h]
      · split at h <;> simp at h

/-- A turn of the command loop leaves `offset` as it was. -/
theorem command_offset (idEq : Int → String → Bool) (p : BareTasks.Proc) (line : String) :
    (BareTasks.command idEq p line).1.offset = p.offset := by
  unfold BareTasks.command
  simp only
  split
  · split
    · next q hq => exact (addTodo_offset p q _).2 hq
    · next q hq => exact (addTodo_offset p q _).1 hq
  · split
    · split
      · next q hq => exact (showTodos_offset p q _ 0).2 hq
      · next count q hq =>
        have h := (showTodos_offset p q _ count).1 hq
        split <;> simpa [BareTasks.prompt, BareTasks.println] using h
    · split
      · split
        · next q hq => exact (findTodos_offset idEq p q _).2 hq
        · next q hq => exact (findTodos_offset idEq p q _).1 hq
      · split <;> rfl

/-- A turn of the inner loop of `show` leaves `offset`, or moves it forward by 10, or moves it
back by 10 when it is at least 10. -/
theorem pager_offset (p : BareTasks.Proc) (line : String) :
    (BareTasks.pager p line).1.offset = p.offset ∨
    (BareTasks.pager p line).1.offset = p.offset + 10 ∨
    (10 ≤ p.offset ∧ (BareTasks.pager p line).1.offset = p.offset - 10) := by
  unfold BareTasks.pager
  simp only
  split
  · by_cases h10 : p.offset ≥ 10
    · exact Or.inr (Or.inr ⟨h10, by simp [h10, BareTasks.prompt]⟩)
    · exact Or.inl (by simp [h10, BareTasks.prompt])
  · split
    · refine Or.inr (Or.inl ?_)
      split
      · next q hq => exact (showTodos_offset _ q _ 0).2 hq
      · next count q hq =>
        have h := (showTodos_offset _ q _ count).1 hq
        split <;> simpa [BareTasks.prompt, BareTasks.println] using h
    · exact Or.inl rfl

/-- Reading a line keeps `offset` a non-negative multiple of 10. -/
theorem step_aligned (idEq : Int → String → Bool) (p : BareTasks.Proc) (m : BareTasks.Mode)
    (line : String) (h : 0 ≤ p.offset ∧ 10 ∣ p.offset) :
    0 ≤ (BareTasks.step idEq p m line).1.offset ∧
      10 ∣ (BareTasks.step idEq p m line).1.offset := by
  cases m with
  | command =>
    show 0 ≤ (BareTasks.command idEq p line).1.offset ∧ _
    rw [show (BareTasks.step idEq p .command line) = BareTasks.command idEq p line from rfl,
      command_offset]
    exact h
  | pager =>
    rw [show (BareTasks.step idEq p .pager line) = BareTasks.pager p line from rfl]
    rcases pager_offset p line with e | e | ⟨h10, e⟩ <;> rw [e]
    · exact h
    · exact ⟨by omega, by omega⟩
    · exact ⟨by omega, by omega⟩

/-- Consuming any input keeps `offset` a non-negative multiple of 10. -/
theorem run_aligned (idEq : Int → String → Bool) (stdin : List String) (p : BareTasks.Proc)
    (m : BareTasks.Mode) (h : 0 ≤ p.offset ∧ 10 ∣ p.offset) :
    0 ≤ (BareTasks.run idEq p m stdin).1.offset ∧
      10 ∣ (BareTasks.run idEq p m stdin).1.offset := by
  induction stdin generalizing p m with
  | nil => exact h
  | cons line rest ih =>
    have hs := step_aligned idEq p m line h
    unfold BareTasks.run
    split
    · next q m2 hq =>
      rw [hq] at hs
      exact ih q m2 hs
    · exact hs

/-- What the cursor of `show` does when `db` is an open handle on a table and the offset is
a non-negative multiple of 10.  The offset stays such a multiple whatever is typed.  `show`
prints the page at the offset, the at most 10 rows that follow the first `offset` rows, and
enters the pager unless the page is empty.  Enter in the pager adds exactly 10 to the offset
and prints the page found there (ending the pager with "No more todos." when it is empty);
`q` in the pager subtracts 10 from the offset, but leaves an offset of 0 at 0. -/
theorem cursor_open_handle (idEq : Int → String → Bool) (stdin : List String)
    (p : BareTasks.Proc) (m : BareTasks.Mode) (h : BareTasks.Handle)
    (s : BareTasks.Store) (shown enter quit : String)
    (hdb : p.db = some h) (hfile : p.file = some s)
    (hinv : 0 ≤ p.offset ∧ 10 ∣ p.offset)
    (hshow : BareTasks.TrimSpace shown.toList = "show".toList)
    (henter : BareTasks.TrimSpace enter.toList = [])
    (hquit : BareTasks.TrimSpace quit.toList = ['q']) :
    (0 ≤ (BareTasks.run idEq p m stdin).1.offset ∧
      10 ∣ (BareTasks.run idEq p m stdin).1.offset) ∧
    (BareTasks.showTodos p p.offset
        = .ok ((((s.rows.drop p.offset.toNat).take 10).length : Int),
               { p with out := p.out ++
                   ((s.rows.drop p.offset.toNat).take 10).map BareTasks.formatTodo }) ∧
      ((s.rows.drop p.offset.toNat).take 10).length ≤ 10) ∧
    (BareTasks.command idEq p shown
        = if ((s.rows.drop p.offset.toNat).take 10).isEmpty then
            ({ p with out := p.out ++ ["No more todos.\n", "> "] },
              BareTasks.Status.waiting BareTasks.Mode.command)
          else
            ({ p with out := p.out ++
                  ((s.rows.drop p.offset.toNat).take 10).map BareTasks.formatTodo ++
                  ["Press Enter to see more or 'q' to go back.\n"] },
              BareTasks.Status.waiting BareTasks.Mode.pager)) ∧
    (BareTasks.pager p enter
        = if ((s.rows.drop (p.offset + 10).toNat).take 10).isEmpty then
            ({ p with offset := p.offset + 10, out := p.out ++ ["No more todos.\n", "> "] },
              BareTasks.Status.waiting BareTasks.Mode.command)
          else
            ({ p with offset := p.offset + 10,
                      out := p.out ++ ((s.rows.drop (p.offset + 10).toNat).take 10).map
                                        BareTasks.formatTodo },
              BareTasks.Status.waiting BareTasks.Mode.pager)) ∧
    (BareTasks.pager p quit
        = ({ p with offset := max (p.offset - 10) 0, out := p.out ++ ["> "] },
            BareTasks.Status.waiting BareTasks.Mode.command)) := by
  refine ⟨run_aligned idEq stdin p m hinv, ⟨?_, List.length_take_le _ _⟩, ?_, ?_, ?_⟩
  · simp only [BareTasks.showTodos, hdb, hfile, BareTasks.Store.page]
  · have hadd : BareTasks.HasPrefix "show".toList "add ".toList = false := by decide
    simp only [BareTasks.command, hshow, hadd, if_true, BareTasks.showTodos, hdb, hfile,
      BareTasks.Store.page, Bool.false_eq_true, if_false]
    cases hpage : (s.rows.drop p.offset.toNat).take 10 with
    | nil => simp [BareTasks.prompt, BareTasks.println]
    | cons t ts =>
      have hlen : ¬ ((ts.length : Int) + 1 = 0) := by omega
      simp [hlen, BareTasks.println]
  · have hne : ¬ (([] : List Char) = "q".toList) := by decide
    simp only [BareTasks.pager, henter, hne, if_false, if_true, BareTasks.showTodos, hdb, hfile,
      BareTasks.Store.page]
    cases hpage : (s.rows.drop (p.offset + 10).toNat).take 10 with
    | nil => simp [BareTasks.prompt, BareTasks.println]
    | cons t ts =>
      have hlen : ¬ ((ts.length : Int) + 1 = 0) := by omega
      simp [hlen]
  · have hq : (['q'] : List Char) = "q".toList := by decide
    simp only [BareTasks.pager, hquit, hq, if_true, BareTasks.prompt]
    by_cases h10 : p.offset ≥ 10
    · have hmax : max (p.offset - 10) 0 = p.offset - 10 := max_eq_left (by omega)
      simp [h10, hmax]
    · have h0 : p.offset = 0 := by omega
      simp [h0]

/-- An instance: a table of 25 rows behind an open handle, the cursor on the second page. -/
theorem cursor_open_handle_example :
    (BareTasks.showTodos Sample.pagedProc 10).map (fun r => (r.1, r.2.out))
      = .ok (10, ["11. todo\n", "12. todo\n", "13. todo\n", "14. todo\n", "15. todo\n",
                  "16. todo\n", "17. todo\n", "18. todo\n", "19. todo\n", "20. todo\n"]) ∧
    ((BareTasks.pager Sample.pagedProc "\n").1.offset = 20 ∧
      (BareTasks.pager Sample.pagedProc "\n").1.out
        = ["21. todo\n", "22. todo\n", "23. todo\n", "24. todo\n", "25. todo\n"] ∧
      (BareTasks.pager Sample.pagedProc "\n").2
        = BareTasks.Status.waiting BareTasks.Mode.pager) ∧
    ((BareTasks.pager Sample.pagedProc "q\n").1.offset = 0 ∧
      (BareTasks.pager Sample.pagedProc "q\n").2
        = BareTasks.Status.waiting BareTasks.Mode.command) ∧
    (BareTasks.run (fun _ _ => false) Sample.pagedProc BareTasks.Mode.command
        ["show\n", "\n", "\n", "q\n", "show\n"]).1.offset = 30 := by
  have h := cursor_open_handle (fun _ _ => false) [] Sample.pagedProc BareTasks.Mode.command
    { dataSourceName := "./app.db" }
    { rows := (List.range 25).map (fun i => { Id := (i : Int) + 1, Title := "todo" }),
      seq := 25 }
    "show\n" "\n" "q\n" rfl rfl ⟨by decide, by decide⟩ (by decide) (by decide) (by decide)
  refine ⟨?_, ?_, ?_, by decide⟩
  · rw [show (10 : Int) = Sample.pagedProc.offset from rfl, h.2.1.1]
    rfl
  · rw [h.2.2.2.1]
    exact ⟨rfl, rfl, rfl⟩
  · rw [h.2.2.2.2]
    exact ⟨rfl, rfl⟩

/-! ## Middleware -/

/-- The loop of `Chain` is a left fold of application. -/
theorem chain_eq_foldl (f : GoTask.HandlerFunc) (ms : List GoTask.Middleware) :
    GoTask.Chain f ms = ms.foldl (fun g mw => mw g) f := by
  induction ms generalizing f with
  | nil => rfl
  | cons m rest ih => exact ih (m f)

/-- The middleware given last is applied last, so it is the outermost wrapper. -/
theorem chain_snoc (f : GoTask.HandlerFunc) (ms : List GoTask.Middleware)
    (m : GoTask.Middleware) :
    GoTask.Chain f (ms ++ [m]) = m (GoTask.Chain f ms) := by
  induction ms generalizing f with
  | nil => rfl
  | cons m1 rest ih => exact ih (m1 f)

/-- C12: `Chain` applies the middlewares in the order given: `Chain(f, m1, ..., mn)` is
`mn(...(m1(f)))`, `Chain(f)` is `f`, and `Chain(f, ms ++ [m]) = m(Chain(f, ms))`.  Hence
`Chain(h, Logging(), ContentTypeJSON())`, the shape of both routes of `main`, is
`ContentTypeJSON(Logging(h))`: it sets the Content-Type to application/json, then runs the
logging wrapper, which logs the start, calls `h` once with the request it was given, and logs
the completion. -/
theorem chain_applies_in_order (f h : GoTask.HandlerFunc) (ms : List GoTask.Middleware)
    (m : GoTask.Middleware) (timeParse : String → Option Time) (world : GoTask.World)
    (r : Request Todo) :
    GoTask.Chain f ms = ms.foldl (fun g mw => mw g) f ∧
    GoTask.Chain f ms = ms.reverse.foldr (fun mw g => mw g) f ∧
    GoTask.Chain f [] = f ∧
    GoTask.Chain f (ms ++ [m]) = m (GoTask.Chain f ms) ∧
    GoTask.Chain h [GoTask.Logging, GoTask.ContentTypeJSON]
      = GoTask.ContentTypeJSON (GoTask.Logging h) ∧
    GoTask.todosRoute timeParse
      = GoTask.ContentTypeJSON
          (GoTask.Logging (GoTask.handlerFunc (Handlers.HandleTodos timeParse))) ∧
    GoTask.todoRoute timeParse
      = GoTask.ContentTypeJSON
          (GoTask.Logging (GoTask.handlerFunc (Handlers.HandleTodo timeParse))) ∧
    GoTask.Chain h [GoTask.Logging, GoTask.ContentTypeJSON] world r
      = GoTask.Logging h { world with w := world.w.setContentType "application/json" } r ∧
    GoTask.Chain h [GoTask.Logging, GoTask.ContentTypeJSON] world r
      = { h { world with w := world.w.setContentType "application/json",
                         log := world.log ++ [GoTask.LogLine.started r.Method r.Path] } r
          with log :=
            (h { world with w := world.w.setContentType "application/json",
                            log := world.log ++ [GoTask.LogLine.started r.Method r.Path] } r).log
              ++ [GoTask.LogLine.completed r.Method r.Path] } ∧
    ({ world with w := (ResponseWriter.fresh : ResponseWriter Todo).setContentType
                         "application/json" } : GoTask.World).w.contentType
      = some "application/json" ∧
    (GoTask.Chain Sample.probe [GoTask.Logging, GoTask.ContentTypeJSON] Sample.world
        Sample.noBody).log
      = [GoTask.LogLine.started "GET" "/todos/2",
         GoTask.LogLine.other "GET /todos/2 application/json",
         GoTask.LogLine.completed "GET" "/todos/2"] := by
  refine ⟨chain_eq_foldl f ms, ?_, rfl, chain_snoc f ms m, rfl, rfl, rfl, rfl, rfl, rfl, ?_⟩
  · rw [chain_eq_foldl, List.foldr_reverse]
  · decide

end GoCliTools
